import Mathlib

/-!
Verification development for the resumable, concurrent, integrity-verified
file-transfer subsystem of this repository, embedded shallowly in Lean 4.

The source files modelled here are `src/scripts/download.py` (generic
async downloader: `_download_one_async`, `run_one`, `main`) and
`src/scripts/gh-release.py` (release-asset fetcher: `download_one`,
`download_many`, `parse_checksum_lines`, `clamp`, `strip_archive_ext`).

External collaborators (the httpx HTTP client, the filesystem, hashlib's
sha256) are modelled as explicit environment values: server responses are
fields of an `Env` record, the filesystem is a record of staging/final file
contents, and the digest function is an oracle `List Nat → String` carried
in the environment.  Machine-level concerns (event loop scheduling, progress
rendering) are abstracted; control flow, branch conditions and file-state
updates follow the Python source line by line.
-/

set_option autoImplicit false

namespace Dotfiles

/-! ## Model of `src/scripts/download.py` -/

/-- Errors raised by one transfer attempt.  `statusErr` stands for the
`httpx.HTTPStatusError` raised by `raise_for_status` (4xx/5xx), and
`downloadErr` for the script's own `DownloadError`. -/
inductive DlErr where
  | statusErr (code : Nat)
  | downloadErr (msg : String)
deriving DecidableEq, Repr

/-- Abstraction of the server/network behaviour observed by one attempt of
`_download_one_async`: the HEAD probe, the first streaming GET `r0`, the
ranged GET issued on resume, the fresh full GET issued after a failed
resume, and the digest oracle standing for `hashlib.sha256`.
A content-length of `0` models both an absent and a zero-valued header,
exactly as `int(h.get("content-length", "0") or 0) or None` does. -/
structure Env where
  headOk : Bool
  headLen : Nat
  headRanges : Bool
  r0Status : Nat
  r0Len : Nat
  r0Ranges : Bool
  r0Body : List Nat
  rangedStatus : Nat
  rangedLen : Nat
  rangedBody : List Nat
  freshStatus : Nat
  freshBody : List Nat
  hashFn : List Nat → String

/-- Filesystem state for one transfer: contents of the staging file
(`<name>.part`) and of the final destination path; `none` means the file
does not exist. -/
structure Fs where
  temp : Option (List Nat)
  final : Option (List Nat)
deriving DecidableEq, Repr

/-- Observable events of one attempt, in order: a ranged request
(`Range: bytes=<start>-`), a streamed write into the staging file
(`append = true` for mode `"ab"`, `false` for `"wb"`), deletion of the
staging file (`temp_path.unlink`), and the atomic install
(`temp_path.replace(final_path)`). -/
inductive Ev where
  | rangeReq (start : Nat)
  | wrote (append : Bool) (bytes : List Nat)
  | unlinkedTemp
  | installed
deriving DecidableEq, Repr

/-- Result of the streaming part of `_download_one_async` (the body of the
`async with client.stream(...) as r0:` block, lines 137-207): the
filesystem afterwards, the events emitted, the final value of the `total`
variable, and either an error or the staged bytes. -/
structure StageOut where
  fs : Fs
  trace : List Ev
  total : Option Nat
  res : Except DlErr (List Nat)

/-- Streaming phase of `_download_one_async` (download.py lines 124-207).
Mirrors the source: HEAD probe whose failure is non-fatal; `r0`'s
`raise_for_status`; the resume branch issuing a ranged request when the
staging file is non-empty and range support was observed via HEAD or via
`r0`'s headers; 206 handling appending at the existing offset and
recomputing `total`; non-206 handling closing the ranged response,
checking the overwrite conflict, and re-streaming a fresh full GET in
mode `"wb"`; and the plain fresh-write branches with their conflict
checks. -/
def stream_phase (env : Env) (resume overwrite : Bool) (fs : Fs) : StageOut :=
  -- HEAD probe: `try ... except Exception: total, range_ok = None, False`
  let total0 : Option Nat :=
    if env.headOk then (if env.headLen = 0 then none else some env.headLen) else none
  let range_ok : Bool := env.headOk && env.headRanges
  -- `r0.raise_for_status()`
  if 400 ≤ env.r0Status then
    ⟨fs, [], total0, .error (.statusErr env.r0Status)⟩
  else
    let total1 : Option Nat :=
      match total0 with
      | some t => some t
      | none => if env.r0Len = 0 then none else some env.r0Len
    match fs.temp, resume with
    | some t, true =>
      if 0 < t.length ∧ (range_ok || env.r0Ranges) = true then
        -- reopen with `Range: bytes={existing}-`
        if env.rangedStatus = 206 then
          let partLen := env.rangedLen
          let totalEff : Option Nat :=
            if partLen = 0 then none else some (t.length + partLen)
          ⟨⟨some (t ++ env.rangedBody), fs.final⟩,
           [.rangeReq t.length, .wrote true env.rangedBody],
           totalEff, .ok (t ++ env.rangedBody)⟩
        else
          if overwrite = false ∧ fs.final.isSome = true then
            ⟨fs, [.rangeReq t.length], total1,
             .error (.downloadErr "exists-no-resume")⟩
          else if 400 ≤ env.freshStatus then
            ⟨fs, [.rangeReq t.length], total1, .error (.statusErr env.freshStatus)⟩
          else
            ⟨⟨some env.freshBody, fs.final⟩,
             [.rangeReq t.length, .wrote false env.freshBody],
             total1, .ok env.freshBody⟩
      else
        if overwrite = false ∧ fs.final.isSome = true then
          ⟨fs, [], total1, .error (.downloadErr "exists-resume-impossible")⟩
        else
          ⟨⟨some env.r0Body, fs.final⟩, [.wrote false env.r0Body], total1,
           .ok env.r0Body⟩
    | _, _ =>
      if fs.final.isSome = true ∧ overwrite = false then
        ⟨fs, [], total1, .error (.downloadErr "exists")⟩
      else
        ⟨⟨some env.r0Body, fs.final⟩, [.wrote false env.r0Body], total1,
         .ok env.r0Body⟩

/-- Python `str.lower()` restricted to its ASCII behaviour (all strings it
is applied to in the source are hex digests or header values). -/
def py_lower (s : String) : String :=
  ⟨s.data.map Char.toLower⟩

/-- Verification and install phase of `_download_one_async` (download.py
lines 209-225): optional digest check with case-insensitive comparison,
deleting the staging file on mismatch, then `temp_path.replace(final_path)`. -/
def verify_install (hashFn : List Nat → String) (sha256 : Option String)
    (staged : List Nat) (fs : Fs) : Fs × List Ev × Except DlErr Unit :=
  match sha256 with
  | some s =>
    if py_lower (hashFn staged) ≠ py_lower s then
      (⟨none, fs.final⟩, [.unlinkedTemp], .error (.downloadErr "sha-mismatch"))
    else
      (⟨none, some staged⟩, [.installed], .ok ())
  | none => (⟨none, some staged⟩, [.installed], .ok ())

/-- Full result of one attempt of `_download_one_async`. -/
structure DlResult where
  fs : Fs
  trace : List Ev
  total : Option Nat
  out : Except DlErr Unit

/-- One attempt of `_download_one_async` (download.py lines 109-225):
the streaming phase followed, on success, by verification and the atomic
install. -/
def download_one_async (env : Env) (resume overwrite : Bool)
    (sha256 : Option String) (fs : Fs) : DlResult :=
  let st := stream_phase env resume overwrite fs
  match st.res with
  | .error e => ⟨st.fs, st.trace, st.total, .error e⟩
  | .ok staged =>
    let vi := verify_install env.hashFn sha256 staged st.fs
    ⟨vi.1, st.trace ++ vi.2.1, st.total, vi.2.2⟩

/-- Result of `run_one` (download.py lines 293-335): final filesystem
state, the backoff sleeps performed (in seconds, in order), the number of
attempts made, and `last_err` (`none` = the transfer succeeded). -/
structure RunRes where
  fs : Fs
  sleeps : List Nat
  attempts : Nat
  lastErr : Option DlErr
deriving Repr

/-- The retry loop of `run_one` (download.py lines 297-332), recursed on the
remaining fuel with the current attempt number.  Every caught failure sets
`last_err`, prints, and sleeps `min(2 ** attempt, 5)` — the sleep is inside
the loop body with no guard, so it also runs after the final failed
attempt.  Success breaks out of the loop with `last_err = None` before the
sleep.  The attempt environments may differ per attempt and the filesystem
state threads through (a failed attempt can leave a staging file that the
next attempt resumes). -/
def run_one_go (envs : Nat → Env) (resume overwrite : Bool)
    (sha256 : Option String) : Nat → Nat → Fs → RunRes
  | 0, _, fs => ⟨fs, [], 0, none⟩
  | n + 1, attempt, fs =>
    let r := download_one_async (envs attempt) resume overwrite sha256 fs
    match r.out with
    | .ok _ => ⟨r.fs, [], 1, none⟩
    | .error e =>
      let s := min (2 ^ attempt) 5
      match n with
      | 0 => ⟨r.fs, [s], 1, some e⟩
      | m + 1 =>
        let rest := run_one_go envs resume overwrite sha256 (m + 1) (attempt + 1) r.fs
        ⟨rest.fs, s :: rest.sleeps, rest.attempts + 1, rest.lastErr⟩

/-- `run_one` (download.py lines 293-335): `attempts = 3` (line 272) tries
numbered from 1; all exceptions from an attempt are caught by the
`except` ladder ending in `except Exception` (lines 315-328), so the loop
itself never raises. -/
def run_one (envs : Nat → Env) (resume overwrite : Bool)
    (sha256 : Option String) (fs : Fs) : RunRes :=
  run_one_go envs resume overwrite sha256 3 1 fs

/-- One submitted URL of the batch: its per-attempt environments and the
initial state of its (per-URL) staging and destination paths. -/
structure UrlJob where
  envs : Nat → Env
  fs0 : Fs

/-- Per-URL results of the batch in `main` (download.py line 337):
`asyncio.gather` over `run_one` for each URL; each `run_one` call reads
and writes only its own job's paths. -/
def batch_results (resume overwrite : Bool) (sha256 : Option String)
    (jobs : List UrlJob) : List RunRes :=
  jobs.map fun j => run_one j.envs resume overwrite sha256 j.fs0

/-- The failed list accumulated by `run_one` callers (download.py lines
334-335): one entry per job whose `last_err` was set. -/
def batch_failed (resume overwrite : Bool) (sha256 : Option String)
    (jobs : List UrlJob) : List DlErr :=
  (batch_results resume overwrite sha256 jobs).filterMap fun r => r.lastErr

/-- The succeeded list (download.py line 312): one entry per job that broke
out of its retry loop successfully. -/
def batch_succeeded (resume overwrite : Bool) (sha256 : Option String)
    (jobs : List UrlJob) : List RunRes :=
  (batch_results resume overwrite sha256 jobs).filter fun r => r.lastErr.isNone

/-- Exit code of `main` (download.py lines 343-347): `typer.Exit(code=1)`
iff the failed list is non-empty. -/
def batch_exit_code (resume overwrite : Bool) (sha256 : Option String)
    (jobs : List UrlJob) : Nat :=
  if batch_failed resume overwrite sha256 jobs = [] then 0 else 1

/-! ## Model of `src/scripts/gh-release.py` -/

/-- Server behaviour observed by one call of gh-release's `download_one`:
the status and body of the (possibly ranged) GET. -/
structure GhEnv where
  status : Nat
  body : List Nat

/-- Filesystem state for one gh-release asset: the `<dest>.part` staging
file and the destination itself. -/
structure GhFs where
  part : Option (List Nat)
  dest : Option (List Nat)
deriving DecidableEq, Repr

/-- gh-release.py `download_one` (lines 265-311).  If the staging file
exists, a `Range: bytes=<pos>-` header is sent and mode `"ab"` is used when
`pos > 0`.  `raise_for_status` propagates HTTP errors (there is no
try/except around it).  The expected-size comparison at lines 307-309 is an
explicit no-op (`pass`): the function renames the staging file to the
destination unconditionally after a completed stream. -/
def gh_download_one (env : GhEnv) (expectedSize : Option Nat) (fs : GhFs) :
    GhFs × Except Nat Unit :=
  let pos : Nat := match fs.part with | some c => c.length | none => 0
  if 400 ≤ env.status then (fs, .error env.status)
  else
    let newPart : List Nat :=
      if 0 < pos then (match fs.part with | some c => c | none => []) ++ env.body
      else env.body
    -- `if expected_size is not None and part.stat().st_size != expected_size: pass`
    let _sizeMismatch : Bool :=
      match expectedSize with
      | some n => decide (newPart.length ≠ n)
      | none => false
    (⟨none, some newPart⟩, .ok ())

/-- The data-asset download loop of gh-release's `download_many` (lines
380-388): `asyncio.gather` over `download_one` with no per-task exception
handling, so the first raising task propagates its exception out of
`download_many`.  Returns the directory state reached together with
`some code` when an HTTP error aborted the batch. -/
def gh_run_data (envOf : String → GhEnv) (expected : String → Option Nat) :
    List String → (String → GhFs) → (String → GhFs) × Option Nat
  | [], dir => (dir, none)
  | a :: rest, dir =>
    let r := gh_download_one (envOf a) (expected a) (dir a)
    match r.2 with
    | .error e => (fun n => if n = a then r.1 else dir n, some e)
    | .ok _ =>
      gh_run_data envOf expected rest (fun n => if n = a then r.1 else dir n)

/-- Remove the last `n` characters (Python slicing `name[:-n]`). -/
def drop_suffix (l : List Char) (n : Nat) : List Char :=
  l.take (l.length - n)

/-- Python `name.rsplit(".", 1)[0] if "." in name else name`. -/
def rsplit_base (l : List Char) : List Char :=
  if l.contains '.' then
    ((l.reverse.dropWhile (fun c => !(c == '.'))).drop 1).reverse
  else l

/-- gh-release.py `strip_archive_ext` (lines 177-181): drop the first
matching archive extension from the fixed list, else the last dotted
suffix. -/
def strip_archive_ext (name : String) : String :=
  let l := name.data
  if (".tar.gz".data).isSuffixOf l then ⟨drop_suffix l 7⟩
  else if (".tgz".data).isSuffixOf l then ⟨drop_suffix l 4⟩
  else if (".zip".data).isSuffixOf l then ⟨drop_suffix l 4⟩
  else if (".tar.xz".data).isSuffixOf l then ⟨drop_suffix l 7⟩
  else if (".txz".data).isSuffixOf l then ⟨drop_suffix l 4⟩
  else if (".tar.bz2".data).isSuffixOf l then ⟨drop_suffix l 8⟩
  else if (".tbz2".data).isSuffixOf l then ⟨drop_suffix l 5⟩
  else ⟨rsplit_base l⟩

/-- Checksum-map lookup in gh-release's verification loop (lines 398-400):
a direct filename match, else a match on the archive-extension-stripped
base name. -/
def gh_lookup_expected (cmap : List (String × String)) (name : String) :
    Option String :=
  match cmap.lookup name with
  | some e => some e
  | none => cmap.lookup (strip_archive_ext name)

/-- One asset's verification in gh-release's `download_many` (lines
393-409): returns `true` when a checksum failure is counted.  Missing
files and assets without an expected digest are skipped. -/
def gh_verify_failed (hashFn : List Nat → String)
    (cmap : List (String × String)) (dir : String → GhFs) (name : String) :
    Bool :=
  match (dir name).dest with
  | none => false
  | some content =>
    match gh_lookup_expected cmap name with
    | none => false
    | some expected => hashFn content ≠ py_lower expected

/-- Overall outcome of gh-release's `download_many`: an exception
propagated out of `asyncio.gather`, a `SystemExit(2)` from the checksum
verification loop (line 411), or a normal return. -/
inductive GhBatchOut where
  | raised (status : Nat)
  | exited (code : Nat)
  | done
deriving DecidableEq, Repr

/-- gh-release.py `download_many`, data-asset phase plus verification
(lines 371-411): download every data asset (first error propagates),
then verify against the checksum map; any failure raises `SystemExit(2)`
after the loop — downloaded files are left in place either way. -/
def gh_download_many (hashFn : List Nat → String)
    (cmap : List (String × String)) (envOf : String → GhEnv)
    (expected : String → Option Nat) (assets : List String)
    (dir0 : String → GhFs) : GhBatchOut × (String → GhFs) :=
  let r := gh_run_data envOf expected assets dir0
  match r.2 with
  | some e => (.raised e, r.1)
  | none =>
    let failures := assets.countP fun a => gh_verify_failed hashFn cmap r.1 a
    if 0 < failures then (.exited 2, r.1) else (.done, r.1)

/-- gh-release.py `clamp` (lines 79-80). -/
def clamp (n lo hi : Int) : Int :=
  max lo (min hi n)

/-- The parallelism value actually passed to `download_many` by `main`
(gh-release.py line 516): `clamp(parallel, 1, 16)`. -/
def effective_parallel (p : Int) : Int :=
  clamp p 1 16

/-! ## Scheduler model (download.py lines 291-311, gh-release.py line 330)

`run_one` streams only inside `async with sem:` where
`sem = asyncio.Semaphore(concurrency)`; gh-release bounds streaming with
`httpx.Limits(max_connections=parallel)`.  Either way each transfer
acquires one permit from a counting semaphore before streaming and
releases it afterwards; a transfer's transition reads only its own status
and the shared counter. -/

/-- Status of one submitted transfer with respect to the admission
semaphore. -/
inductive TStat where
  | pending
  | active
  | done
deriving DecidableEq, Repr

/-- Scheduler state: available permits of the counting semaphore plus the
status of every submitted transfer. -/
structure Sched where
  avail : Nat
  tasks : List TStat
deriving DecidableEq, Repr

/-- Initial scheduler state: `asyncio.Semaphore(n)` with `m` submitted
transfers, none streaming yet. -/
def Sched.init (n m : Nat) : Sched :=
  ⟨n, List.replicate m .pending⟩

/-- Atomic scheduler transitions: a pending transfer acquires a permit and
starts streaming, or an active transfer finishes and releases its permit. -/
inductive SchedStep : Sched → Sched → Prop where
  | acquire (s : Sched) (i a : Nat) :
      s.avail = a + 1 → s.tasks.get? i = some .pending →
      SchedStep s ⟨a, s.tasks.set i .active⟩
  | release (s : Sched) (i : Nat) :
      s.tasks.get? i = some .active →
      SchedStep s ⟨s.avail + 1, s.tasks.set i .done⟩

/-- States reachable from the initial scheduler state. -/
inductive SchedReach (n m : Nat) : Sched → Prop where
  | init : SchedReach n m (Sched.init n m)
  | step {s s' : Sched} : SchedReach n m s → SchedStep s s' → SchedReach n m s'

/-- Number of transfers actively streaming. -/
def active_count (s : Sched) : Nat :=
  s.tasks.countP fun t => t == .active

/-! ## Concrete instances used by witnesses and counterexamples -/

/-- Digest oracle that always answers `"aa"`. -/
def hash_aa : List Nat → String := fun _ => "aa"

/-- Server that supports ranges and honours a resume with 206. -/
def env_resume_206 : Env :=
  { headOk := true, headLen := 10, headRanges := true, r0Status := 200,
    r0Len := 10, r0Ranges := true, r0Body := [0, 1, 2, 3],
    rangedStatus := 206, rangedLen := 3, rangedBody := [5, 6, 7],
    freshStatus := 200, freshBody := [9, 9], hashFn := hash_aa }

/-- Server that advertises range support but answers a ranged request
with 200 (resume not honoured). -/
def env_resume_200 : Env :=
  { env_resume_206 with rangedStatus := 200 }

/-- Server whose GET fails with a 500 status. -/
def env_fail : Env :=
  { env_resume_206 with r0Status := 500 }

/-- Attempt environments that fail twice, then succeed. -/
def envs_fail_twice : Nat → Env :=
  fun a => if a ≤ 2 then env_fail else env_resume_206

/-- Attempt environments that always fail. -/
def envs_all_fail : Nat → Env :=
  fun _ => env_fail

/-- gh-release server answering 200 with a three-byte body. -/
def gh_env_ok : GhEnv := ⟨200, [1, 2, 3]⟩

/-- gh-release server answering 404. -/
def gh_env_404 : GhEnv := ⟨404, []⟩

/-- gh-release batch in which the asset named `"a"` fails and every other
asset succeeds. -/
def gh_envOf_mixed : String → GhEnv :=
  fun n => if n = "a" then gh_env_404 else gh_env_ok

/-- gh-release batch in which every asset succeeds. -/
def gh_envOf_ok : String → GhEnv :=
  fun _ => gh_env_ok

/-- Empty destination directory. -/
def gh_dir0 : String → GhFs := fun _ => ⟨none, none⟩

/-- Directory state after downloading the single asset `"a.bin"` with the
three-byte body. -/
def gh_dir_one : String → GhFs :=
  fun n => if n = "a.bin" then ⟨none, some [1, 2, 3]⟩ else ⟨none, none⟩

/-- A batch job whose every attempt fails with HTTP 500. -/
def job_fail : UrlJob := ⟨envs_all_fail, ⟨none, none⟩⟩

/-! ## Python string semantics used by the filename and manifest code

Strings are handled as `List Char`.  `unquote` is modelled with
single-byte charset semantics: each percent-escape decodes to the
character with that code point (exact for Latin-1 and for ASCII-only
content; the stdlib's multibyte charset decoding is abstracted). The
regex `\s` class is modelled by its ASCII members, which is exact for
header and manifest content. -/

/-- Python `str.strip()` / regex `\s` whitespace (ASCII members). -/
def isPyWs (c : Char) : Bool :=
  c == ' ' || c == '\t' || c == '\n' || c == '\r' || c == '\x0b' || c == '\x0c'

/-- Line boundaries recognized by Python `str.splitlines()`. -/
def isLineBreak (c : Char) : Bool :=
  c == '\n' || c == '\r' || c == '\x0b' || c == '\x0c' || c == '\x1c' ||
    c == '\x1d' || c == '\x1e' || c == '\x85' || c == '\u2028' || c == '\u2029'

/-- Python `str.strip()`: drop leading and trailing whitespace. -/
def pyStrip (l : List Char) : List Char :=
  ((l.dropWhile isPyWs).reverse.dropWhile isPyWs).reverse

/-- The regex class `[0-9a-fA-F]`. -/
def is_hex_digit (c : Char) : Bool :=
  decide (('0' ≤ c ∧ c ≤ '9') ∨ ('a' ≤ c ∧ c ≤ 'f') ∨ ('A' ≤ c ∧ c ≤ 'F'))

/-- Python `str.splitlines()` accumulator: `afterCR` suppresses the
`\n` of a `\r\n` pair so it counts as one boundary. -/
def splitlinesAux : List Char → List Char → Bool → List (List Char)
  | [], cur, _ => if cur.isEmpty then [] else [cur.reverse]
  | c :: rest, cur, afterCR =>
    if afterCR && c == '\n' then splitlinesAux rest cur false
    else if c == '\r' then cur.reverse :: splitlinesAux rest [] true
    else if isLineBreak c then cur.reverse :: splitlinesAux rest [] false
    else splitlinesAux rest (c :: cur) false

/-- Python `str.splitlines()`. -/
def splitlines (l : List Char) : List (List Char) :=
  splitlinesAux l [] false

/-- Matcher for gh-release.py's anchored regex
`^([0-9a-fA-F]{64})\s+\*?(.*)$` (line 201): 64 hex digits, at least one
whitespace, an optional literal `*`, and the rest captured as the
filename.  The greedy quantifiers are deterministic here because the
character classes are disjoint from their successors. -/
def match_hex_line (s : List Char) : Option (List Char × List Char) :=
  let h := s.take 64
  let rest := s.drop 64
  if h.length = 64 ∧ h.all is_hex_digit = true then
    match rest with
    | [] => none
    | c :: _ =>
      if isPyWs c then
        match rest.dropWhile isPyWs with
        | '*' :: r => some (h, r)
        | r => some (h, r)
      else none
  else none

/-- Matcher for gh-release.py's anchored regex
`^(.*?)[=:]\s*([0-9a-fA-F]{64})$` (line 205): the lazy group grows from
the left, so the first separator position whose suffix is optional
whitespace followed by exactly 64 hex digits wins. -/
def match_name_sep : List Char → List Char → Option (List Char × List Char)
  | _, [] => none
  | acc, c :: rest =>
    if c == '=' || c == ':' then
      let tail := rest.dropWhile isPyWs
      if tail.length = 64 ∧ tail.all is_hex_digit = true then
        some (acc.reverse, tail)
      else match_name_sep (c :: acc) rest
    else match_name_sep (c :: acc) rest

/-- One line of gh-release.py `parse_checksum_lines` (lines 196-208):
strip, skip blank and `#` comment lines, try the `HEX filename` form,
then the `filename[=:] HEX` form; keys are stripped and digests
lowercased. -/
def parse_checksum_line (line : List Char) : Option (List Char × List Char) :=
  let s := pyStrip line
  if s.isEmpty then none
  else if s.head? = some '#' then none
  else
    match match_hex_line s with
    | some (h, fname) => some (pyStrip fname, h.map Char.toLower)
    | none =>
      match match_name_sep [] s with
      | some (fname, h) => some (pyStrip fname, h.map Char.toLower)
      | none => none

/-- Python `dict` assignment `d[k] = v`: replace in place or append. -/
def dict_insert (k v : String) : List (String × String) → List (String × String)
  | [] => [(k, v)]
  | (k', v') :: rest =>
    if k' = k then (k, v) :: rest else (k', v') :: dict_insert k v rest

/-- gh-release.py `parse_checksum_lines` (lines 188-209). -/
def parse_checksum_lines (text : String) : List (String × String) :=
  (splitlines text.data).foldl
    (fun d line =>
      match parse_checksum_line line with
      | some (k, v) => dict_insert ⟨k⟩ ⟨v⟩ d
      | none => d) []

/-! ## download.py filename helpers (lines 39-94) -/

/-- Case-insensitive literal matching: the pattern (given lowercase) is
matched against the input's lowercased characters; returns the
remainder. -/
def matchCI : List Char → List Char → Option (List Char)
  | [], input => some input
  | _ :: _, [] => none
  | p :: ps, c :: cs => if c.toLower == p then matchCI ps cs else none

/-- Matcher at one position for download.py's RFC 5987 regex
`filename\*\s*=\s*([^'\";]+)''([^;]+)` (line 43, case-insensitive).
The greedy first group cannot contain a quote, so the following `''`
makes the match deterministic. -/
def match_star_at (s : List Char) : Option (List Char × List Char) :=
  match matchCI ("filename*".data) s with
  | none => none
  | some r1 =>
    match r1.dropWhile isPyWs with
    | '=' :: r3 =>
      let r4 := r3.dropWhile isPyWs
      let g1 := r4.takeWhile fun c => !(c == '\'' || c == '"' || c == ';')
      if g1.isEmpty then none
      else
        match r4.drop g1.length with
        | '\'' :: '\'' :: r5 =>
          let g2 := r5.takeWhile fun c => !(c == ';')
          if g2.isEmpty then none else some (g1, g2)
        | _ => none
    | _ => none

/-- `re.search` for the RFC 5987 form: leftmost matching start
position. -/
def search_star : List Char → Option (List Char × List Char)
  | [] => none
  | c :: rest =>
    match match_star_at (c :: rest) with
    | some r => some r
    | none => search_star rest

/-- Matcher at one position for download.py's plain regex
`filename\s*=\s*"?(?P<fn>[^";]+)"?` (line 51, case-insensitive): an
optional opening quote, then at least one character excluding quote and
semicolon; the trailing optional quote never affects the group. -/
def match_plain_at (s : List Char) : Option (List Char) :=
  match matchCI ("filename".data) s with
  | none => none
  | some r1 =>
    match r1.dropWhile isPyWs with
    | '=' :: r3 =>
      let r4 := r3.dropWhile isPyWs
      let r5 := match r4 with
        | '"' :: t => t
        | t => t
      let g := r5.takeWhile fun c => !(c == '"' || c == ';')
      if g.isEmpty then none else some g
    | _ => none

/-- `re.search` for the plain `filename=` form. -/
def search_plain : List Char → Option (List Char)
  | [] => none
  | c :: rest =>
    match match_plain_at (c :: rest) with
    | some r => some r
    | none => search_plain rest

/-- Hex value of one character, as used by percent-decoding. -/
def hex_val (c : Char) : Option Nat :=
  if '0' ≤ c ∧ c ≤ '9' then some (c.toNat - 48)
  else if 'a' ≤ c ∧ c ≤ 'f' then some (c.toNat - 87)
  else if 'A' ≤ c ∧ c ≤ 'F' then some (c.toNat - 55)
  else none

/-- `urllib.parse.unquote` with single-byte charset semantics: `%XY`
with two hex digits becomes the character with code `16*X + Y`; invalid
escapes stay literal. -/
def unquote_chars : List Char → List Char
  | [] => []
  | '%' :: a :: b :: rest =>
    (match hex_val a, hex_val b with
    | some x, some y => Char.ofNat (16 * x + y) :: unquote_chars rest
    | _, _ => '%' :: unquote_chars (a :: b :: rest))
  | c :: rest => c :: unquote_chars rest

/-- download.py `_filename_from_content_disposition` (lines 39-54): the
RFC 5987 encoded form first, then the plain `filename=` form.  The
`LookupError` fallback for an unknown charset coincides with the main
branch under the single-byte `unquote` model. -/
def filename_from_content_disposition (cd : Option String) : Option String :=
  match cd with
  | none => none
  | some s =>
    match search_star s.data with
    | some (_, enc) => some ⟨unquote_chars enc⟩
    | none =>
      match search_plain s.data with
      | some g => some ⟨g⟩
      | none => none

/-- Characters allowed in a URL scheme (`urllib.parse.scheme_chars`). -/
def scheme_char (c : Char) : Bool :=
  c.isAlpha || c.isDigit || c == '+' || c == '-' || c == '.'

/-- `urlsplit` scheme removal: strip `scheme:` when the text before the
first colon is a valid scheme. -/
def split_scheme (l : List Char) : List Char :=
  match l.findIdx? (fun c => c == ':') with
  | none => l
  | some i =>
    if 0 < i ∧ (l.take i).all scheme_char = true
        ∧ l.head?.any Char.isAlpha = true then
      l.drop (i + 1)
    else l

/-- `urlsplit` netloc removal: after `//`, drop up to the next `/`, `?`
or `#` (which stays with the path/query/fragment). -/
def drop_netloc (l : List Char) : List Char :=
  match l with
  | '/' :: '/' :: rest =>
    rest.dropWhile fun c => !(c == '/' || c == '?' || c == '#')
  | _ => l

/-- The `.path` component of `urllib.parse.urlsplit`: scheme and netloc
removed, truncated at the first `?` or `#`. -/
def urlsplit_path (s : String) : String :=
  ⟨(drop_netloc (split_scheme s.data)).takeWhile fun c => !(c == '?' || c == '#')⟩

/-- Split on `/` keeping empty components. -/
def split_slash_aux : List Char → List Char → List (List Char)
  | [], cur => [cur.reverse]
  | c :: rest, cur =>
    if c == '/' then cur.reverse :: split_slash_aux rest []
    else split_slash_aux rest (c :: cur)

/-- `pathlib.Path(p).name`: last component after dropping empty and `.`
components. -/
def path_name (p : List Char) : List Char :=
  let comps := (split_slash_aux p []).filter fun c => !(c.isEmpty || c == ([ '.' ]))
  match comps.getLast? with
  | some n => n
  | none => []

/-- download.py `_filename_from_url` (lines 57-61): the decoded last
path segment of the URL, or nothing when empty. -/
def filename_from_url (url : String) : Option String :=
  let name := path_name (unquote_chars (urlsplit_path url).data)
  if name.isEmpty then none else some ⟨name⟩

/-- download.py `_sanitize_filename` (lines 64-67): replace path
separators with `_`, strip, replace control characters `\x00-\x1f` with
`_`, and fall back to the literal default when empty. -/
def sanitize_filename (name : String) : String :=
  let n1 := name.data.map fun c => if c == '\\' || c == '/' then '_' else c
  let n2 := pyStrip n1
  let n3 := n2.map fun c => if c.toNat ≤ 31 then '_' else c
  if n3.isEmpty then "download.bin" else ⟨n3⟩

/-- A well-formed manifest filename: non-empty, no leading or trailing
whitespace, and free of line-boundary characters. -/
def tidy_name (l : List Char) : Prop :=
  l ≠ [] ∧ l.head?.all (fun c => !isPyWs c) = true
    ∧ l.getLast?.all (fun c => !isPyWs c) = true
    ∧ l.all (fun c => !isLineBreak c) = true

instance (l : List Char) : Decidable (tidy_name l) := by
  unfold tidy_name
  infer_instance

/-- Python's `a or b` on an optional string: the string when truthy
(present and non-empty), else the fallback. -/
def py_or (a : Option String) (b : String) : String :=
  match a with
  | some s => if s ≠ "" then s else b
  | none => b

/-- download.py `_determine_filename` (lines 87-94): explicit override
when truthy, else Content-Disposition, else the final URL's last path
segment, else the literal `"download.bin"`; the result is sanitized. -/
def determine_filename (cd : Option String) (finalUrl : String)
    (overrideName : Option String) : String :=
  if overrideName.getD "" ≠ "" then sanitize_filename (overrideName.getD "")
  else
    sanitize_filename
      (py_or (filename_from_content_disposition cd)
        (py_or (filename_from_url finalUrl) "download.bin"))

end Dotfiles

namespace Dotfiles

/-! ## Helper lemmas -/

/-- The streaming phase never touches the final destination path. -/
theorem stream_phase_final (env : Env) (resume overwrite : Bool) (fs : Fs) :
    (stream_phase env resume overwrite fs).fs.final = fs.final := by
  unfold stream_phase
  dsimp only
  repeat' split
  all_goals rfl

/-- The streaming phase never emits an install event. -/
theorem stream_phase_no_install (env : Env) (resume overwrite : Bool) (fs : Fs) :
    Ev.installed ∉ (stream_phase env resume overwrite fs).trace := by
  unfold stream_phase
  dsimp only
  repeat' split
  all_goals simp

end Dotfiles

namespace Dotfiles

/-- C1 (amended): for a transfer with a non-empty staging file, resume
enabled, and range support observed via the HEAD probe or `r0`'s headers,
the executor issues a byte-range request starting at the existing staging
size; a 206 response is appended at that offset (mode `"ab"`) and the total
becomes `existing_size + new_length` when the new content length is known;
a non-206 response leads to a full fresh write from offset 0 (mode `"wb"`,
truncating the staging file) unless the final destination already exists
and overwrite is disabled, in which case a conflict `DownloadError` is
raised instead of any write. -/
theorem C1_resume_range_behavior (env : Env) (overwrite : Bool)
    (sha : Option String) (t : List Nat) (final : Option (List Nat))
    (ht : t ≠ [])
    (hev : ((env.headOk && env.headRanges) || env.r0Ranges) = true)
    (h0 : env.r0Status < 400) :
    Ev.rangeReq t.length ∈
      (download_one_async env true overwrite sha ⟨some t, final⟩).trace
    ∧ (env.rangedStatus = 206 →
        (stream_phase env true overwrite ⟨some t, final⟩).fs.temp
            = some (t ++ env.rangedBody)
        ∧ Ev.wrote true env.rangedBody ∈
            (download_one_async env true overwrite sha ⟨some t, final⟩).trace
        ∧ (env.rangedLen ≠ 0 →
            (download_one_async env true overwrite sha ⟨some t, final⟩).total
              = some (t.length + env.rangedLen)))
    ∧ (env.rangedStatus ≠ 206 → (overwrite = true ∨ final = none) →
        env.freshStatus < 400 →
        (stream_phase env true overwrite ⟨some t, final⟩).fs.temp
            = some env.freshBody
        ∧ Ev.wrote false env.freshBody ∈
            (download_one_async env true overwrite sha ⟨some t, final⟩).trace
        ∧ ∀ b, Ev.wrote true b ∉
            (download_one_async env true overwrite sha ⟨some t, final⟩).trace)
    ∧ (env.rangedStatus ≠ 206 → overwrite = false → final ≠ none →
        (download_one_async env true overwrite sha ⟨some t, final⟩).out
            = .error (.downloadErr "exists-no-resume")
        ∧ (download_one_async env true overwrite sha ⟨some t, final⟩).fs
            = ⟨some t, final⟩
        ∧ ∀ m b, Ev.wrote m b ∉
            (download_one_async env true overwrite sha ⟨some t, final⟩).trace) := by
  have hl : 0 < t.length := List.length_pos.mpr ht
  have h0' : ¬ (400 ≤ env.r0Status) := by omega
  by_cases h206 : env.rangedStatus = 206
  · refine ⟨?_, fun _ => ⟨?_, ?_, fun hlen => ?_⟩,
      fun habs _ _ => absurd h206 habs, fun habs _ _ => absurd h206 habs⟩
    · simp [download_one_async, stream_phase, h0', hl, hev, h206, verify_install]
    · simp [stream_phase, h0', hl, hev, h206]
    · simp [download_one_async, stream_phase, h0', hl, hev, h206, verify_install]
    · simp [download_one_async, stream_phase, h0', hl, hev, h206, hlen]
  · by_cases hc : overwrite = false ∧ final ≠ none
    · have hcc : overwrite = false ∧ (Fs.mk (some t) final).final.isSome = true := by
        refine ⟨hc.1, ?_⟩
        rcases hc with ⟨-, hne⟩
        cases final with
        | none => exact absurd rfl hne
        | some f => rfl
      refine ⟨?_, fun habs => absurd habs h206,
        fun _ hd _ => ?_, fun _ _ _ => ⟨?_, ?_, ?_⟩⟩
      · simp [download_one_async, stream_phase, h0', hl, hev, h206, hcc]
      · rcases hd with how | hfin
        · exact absurd how (by simp [hc.1])
        · exact absurd hfin hc.2
      · simp [download_one_async, stream_phase, h0', hl, hev, h206, hcc]
      · simp [download_one_async, stream_phase, h0', hl, hev, h206, hcc]
      · simp [download_one_async, stream_phase, h0', hl, hev, h206, hcc]
    · have hcc : ¬ (overwrite = false ∧ (Fs.mk (some t) final).final.isSome = true) := by
        intro hand
        refine hc ⟨hand.1, ?_⟩
        rcases hand with ⟨-, hs⟩
        cases final with
        | none => simp at hs
        | some f => simp
      by_cases hf : 400 ≤ env.freshStatus
      · refine ⟨?_, fun habs => absurd habs h206, fun _ _ hfl => absurd hf (by omega),
          fun _ how hfin => absurd ⟨how, hfin⟩ hc⟩
        simp [download_one_async, stream_phase, h0', hl, hev, h206, hcc, hf]
      · refine ⟨?_, fun habs => absurd habs h206, fun _ _ _ => ⟨?_, ?_, ?_⟩,
          fun _ how hfin => absurd ⟨how, hfin⟩ hc⟩
        · simp [download_one_async, stream_phase, h0', hl, hev, h206, hcc, hf]
        · simp [stream_phase, h0', hl, hev, h206, hcc, hf]
        · simp [download_one_async, stream_phase, h0', hl, hev, h206, hcc, hf,
            verify_install]
        · intro b
          simp [download_one_async, stream_phase, h0', hl, hev, h206, hcc, hf,
            verify_install]
          cases sha with
          | none => simp
          | some s => by_cases hm : py_lower (env.hashFn env.freshBody) = py_lower s <;>
              simp [hm]

/-- C1 witness: a concrete resumed transfer against a 206-answering server
issues the ranged request at offset 1 and appends the new bytes. -/
theorem C1_resume_range_behavior_witness :
    Ev.rangeReq 1 ∈
      (download_one_async env_resume_206 true false none ⟨some [7], none⟩).trace
    ∧ (stream_phase env_resume_206 true false ⟨some [7], none⟩).fs.temp
        = some ([7] ++ [5, 6, 7])
    ∧ (download_one_async env_resume_206 true false none ⟨some [7], none⟩).total
        = some 4 := by
  have h := C1_resume_range_behavior env_resume_206 false none [7] none
    (by decide) (by decide) (by decide)
  exact ⟨h.1, (h.2.1 rfl).1, (h.2.1 rfl).2.2 (by decide)⟩

/-- C1 counterexample: with a non-empty staging file, resume enabled,
observed range support, a non-206 answer to the ranged request, and a
pre-existing destination with overwrite disabled, the executor performs no
fresh write at all — it raises a conflict `DownloadError`, leaving the old
partial staging bytes in place, contradicting the claim that a non-206
response always leads to a full fresh write from offset 0. -/
theorem C1_counterexample :
    (download_one_async env_resume_200 true false none ⟨some [7], some [9]⟩).out
        = .error (.downloadErr "exists-no-resume")
    ∧ (download_one_async env_resume_200 true false none ⟨some [7], some [9]⟩).trace
        = [Ev.rangeReq 1]
    ∧ (download_one_async env_resume_200 true false none ⟨some [7], some [9]⟩).fs
        = ⟨some [7], some [9]⟩ :=
  ⟨rfl, rfl, rfl⟩

end Dotfiles

namespace Dotfiles

/-- Unrolled characterization of the three-attempt retry loop of
`run_one`: the outcome of each attempt decides whether to break (success)
or to sleep `min(2 ** attempt, 5)` and continue; the sleep also happens
after a failed final attempt. -/
theorem run_one_eq (envs : Nat → Env) (r o : Bool) (s : Option String) (fs : Fs) :
    run_one envs r o s fs =
      (match (download_one_async (envs 1) r o s fs).out with
      | .ok _ => (⟨(download_one_async (envs 1) r o s fs).fs, [], 1, none⟩ : RunRes)
      | .error _ =>
        match (download_one_async (envs 2) r o s
            (download_one_async (envs 1) r o s fs).fs).out with
        | .ok _ => ⟨(download_one_async (envs 2) r o s
            (download_one_async (envs 1) r o s fs).fs).fs, [2], 2, none⟩
        | .error _ =>
          match (download_one_async (envs 3) r o s
              (download_one_async (envs 2) r o s
                (download_one_async (envs 1) r o s fs).fs).fs).out with
          | .ok _ => ⟨(download_one_async (envs 3) r o s
              (download_one_async (envs 2) r o s
                (download_one_async (envs 1) r o s fs).fs).fs).fs, [2, 4], 3, none⟩
          | .error e3 => ⟨(download_one_async (envs 3) r o s
              (download_one_async (envs 2) r o s
                (download_one_async (envs 1) r o s fs).fs).fs).fs,
              [2, 4, 5], 3, some e3⟩) := by
  unfold run_one
  cases h1 : (download_one_async (envs 1) r o s fs).out with
  | ok u => simp only [run_one_go, h1]
  | error e1 =>
    cases h2 : (download_one_async (envs 2) r o s
        (download_one_async (envs 1) r o s fs).fs).out with
    | ok u => simp only [run_one_go, h1, h2] <;> norm_num
    | error e2 =>
      cases h3 : (download_one_async (envs 3) r o s
          (download_one_async (envs 2) r o s
            (download_one_async (envs 1) r o s fs).fs).fs).out with
      | ok u => simp only [run_one_go, h1, h2, h3] <;> norm_num
      | error e3 => simp only [run_one_go, h1, h2, h3] <;> norm_num

end Dotfiles

namespace Dotfiles

/-- C3 (amended): when the final destination exists, overwrite is
disabled, and resume is impossible (resume off, no staging file, an empty
staging file, no observed range support, or a ranged request answered
without 206), the attempt raises the conflict `DownloadError` before any
byte is written to the staging file and leaves the filesystem untouched;
however the retry controller does not special-case this error: `run_one`
still makes all 3 attempts and sleeps backoff after each failed attempt,
ending with the conflict error recorded. -/
theorem C3_conflict_error (env : Env) (resume : Bool) (sha : Option String)
    (tempOpt : Option (List Nat)) (f : List Nat)
    (hd : resume = false ∨ tempOpt = none ∨ tempOpt = some []
      ∨ ((env.headOk && env.headRanges) || env.r0Ranges) = false
      ∨ env.rangedStatus ≠ 206)
    (h0 : env.r0Status < 400) :
    ((∃ m, (download_one_async env resume false sha ⟨tempOpt, some f⟩).out
        = .error (.downloadErr m))
      ∧ (download_one_async env resume false sha ⟨tempOpt, some f⟩).fs
          = ⟨tempOpt, some f⟩
      ∧ ∀ mb b, Ev.wrote mb b ∉
          (download_one_async env resume false sha ⟨tempOpt, some f⟩).trace)
    ∧ ∃ m, run_one (fun _ => env) resume false sha ⟨tempOpt, some f⟩
        = ⟨⟨tempOpt, some f⟩, [2, 4, 5], 3, some (.downloadErr m)⟩ := by
  have h0' : ¬ (400 ≤ env.r0Status) := by omega
  have key : (∃ m, (download_one_async env resume false sha ⟨tempOpt, some f⟩).out
        = .error (.downloadErr m))
      ∧ (download_one_async env resume false sha ⟨tempOpt, some f⟩).fs
          = ⟨tempOpt, some f⟩
      ∧ ∀ mb b, Ev.wrote mb b ∉
          (download_one_async env resume false sha ⟨tempOpt, some f⟩).trace := by
    cases tempOpt with
    | none =>
      refine ⟨⟨"exists", ?_⟩, ?_, ?_⟩ <;>
        cases resume <;>
          simp [download_one_async, stream_phase, h0']
    | some t =>
      cases resume with
      | false =>
        refine ⟨⟨"exists", ?_⟩, ?_, ?_⟩ <;>
          simp [download_one_async, stream_phase, h0']
      | true =>
        by_cases hcond : 0 < t.length ∧ ((env.headOk && env.headRanges) || env.r0Ranges) = true
        · have hr : env.rangedStatus ≠ 206 := by
            rcases hd with h | h | h | h | h
            · exact absurd h (by simp)
            · exact absurd h (by simp)
            · rw [Option.some.inj h] at hcond
              exact absurd hcond.1 (by simp)
            · rw [h] at hcond
              exact absurd hcond.2 (by simp)
            · exact h
          refine ⟨⟨"exists-no-resume", ?_⟩, ?_, ?_⟩ <;>
            simp [download_one_async, stream_phase, h0', hcond, hr]
        · simp only [Bool.or_eq_true, Bool.and_eq_true] at hcond
          refine ⟨⟨"exists-resume-impossible", ?_⟩, ?_, ?_⟩ <;>
            simp [download_one_async, stream_phase, h0', hcond]
  refine ⟨key, ?_⟩
  obtain ⟨⟨m, hout⟩, hfs, -⟩ := key
  refine ⟨m, ?_⟩
  rw [run_one_eq]
  simp only [hfs, hout]

/-- C3 witness: concrete conflicting transfer (destination exists,
overwrite off, no staging file) raises the conflict error without writing
and is retried three times with sleeps 2, 4, 5. -/
theorem C3_conflict_error_witness :
    ((∃ m, (download_one_async env_resume_206 true false none ⟨none, some [9]⟩).out
        = .error (.downloadErr m))
      ∧ (download_one_async env_resume_206 true false none ⟨none, some [9]⟩).fs
          = ⟨none, some [9]⟩
      ∧ ∀ mb b, Ev.wrote mb b ∉
          (download_one_async env_resume_206 true false none ⟨none, some [9]⟩).trace)
    ∧ ∃ m, run_one (fun _ => env_resume_206) true false none ⟨none, some [9]⟩
        = ⟨⟨none, some [9]⟩, [2, 4, 5], 3, some (.downloadErr m)⟩ :=
  C3_conflict_error env_resume_206 true none none [9] (Or.inr (Or.inl rfl))
    (by decide)

/-- C3 counterexample: in the very scenario of the claim (existing
destination, overwrite disabled, resume impossible because there is no
staging file), the retry controller does not short-circuit: it makes 3
attempts and sleeps 3 backoff sleeps, contradicting "zero retry attempts
are made and no backoff sleep occurs". -/
theorem C3_counterexample :
    (run_one (fun _ => env_resume_206) true false none ⟨none, some [9]⟩).attempts = 3
    ∧ (run_one (fun _ => env_resume_206) true false none ⟨none, some [9]⟩).sleeps
        = [2, 4, 5]
    ∧ (run_one (fun _ => env_resume_206) true false none ⟨none, some [9]⟩).lastErr
        = some (.downloadErr "exists") :=
  ⟨rfl, rfl, rfl⟩

end Dotfiles

namespace Dotfiles

/-- C4 (amended): the retry controller makes at most 3 attempts; after a
failed attempt numbered `attempt` it sleeps `min(2 ** attempt, 5)` seconds
— after every failed attempt, including the final one; a transfer that
fails twice and succeeds on the third attempt is reported as succeeded
having slept exactly twice (2 s and 4 s); after all attempts are
exhausted the last error is recorded as the final outcome, with three
backoff sleeps 2, 4, 5. -/
theorem C4_retry_controller :
    (∀ (envs : Nat → Env) (r o : Bool) (s : Option String) (fs : Fs),
      (run_one envs r o s fs).attempts ≤ 3
      ∧ (run_one envs r o s fs).sleeps.length ≤ 3)
    ∧ (∀ (envs : Nat → Env) (r o : Bool) (s : Option String) (fs : Fs)
        (e1 e2 : DlErr) (u : Unit),
        (download_one_async (envs 1) r o s fs).out = .error e1 →
        (download_one_async (envs 2) r o s
            (download_one_async (envs 1) r o s fs).fs).out = .error e2 →
        (download_one_async (envs 3) r o s
            (download_one_async (envs 2) r o s
              (download_one_async (envs 1) r o s fs).fs).fs).out = .ok u →
        (run_one envs r o s fs).lastErr = none
        ∧ (run_one envs r o s fs).sleeps = [min (2 ^ 1) 5, min (2 ^ 2) 5]
        ∧ (run_one envs r o s fs).attempts = 3)
    ∧ (∀ (envs : Nat → Env) (r o : Bool) (s : Option String) (fs : Fs)
        (e1 e2 e3 : DlErr),
        (download_one_async (envs 1) r o s fs).out = .error e1 →
        (download_one_async (envs 2) r o s
            (download_one_async (envs 1) r o s fs).fs).out = .error e2 →
        (download_one_async (envs 3) r o s
            (download_one_async (envs 2) r o s
              (download_one_async (envs 1) r o s fs).fs).fs).out = .error e3 →
        (run_one envs r o s fs).lastErr = some e3
        ∧ (run_one envs r o s fs).sleeps
            = [min (2 ^ 1) 5, min (2 ^ 2) 5, min (2 ^ 3) 5]
        ∧ (run_one envs r o s fs).attempts = 3) := by
  refine ⟨?_, ?_, ?_⟩
  · intro envs r o s fs
    rw [run_one_eq]
    cases h1 : (download_one_async (envs 1) r o s fs).out with
    | ok u => simp
    | error e1 =>
      cases h2 : (download_one_async (envs 2) r o s
          (download_one_async (envs 1) r o s fs).fs).out with
      | ok u => simp
      | error e2 =>
        cases h3 : (download_one_async (envs 3) r o s
            (download_one_async (envs 2) r o s
              (download_one_async (envs 1) r o s fs).fs).fs).out with
        | ok u => simp
        | error e3 => simp
  · intro envs r o s fs e1 e2 u h1 h2 h3
    rw [run_one_eq]
    simp [h1, h2, h3]
  · intro envs r o s fs e1 e2 e3 h1 h2 h3
    rw [run_one_eq]
    simp [h1, h2, h3]

/-- C4 witness: a transfer failing its first two attempts with HTTP 500
and succeeding on the third is reported successful after exactly two
sleeps; a transfer failing all three attempts records the last error and
sleeps three times. -/
theorem C4_retry_controller_witness :
    ((run_one envs_fail_twice true false none ⟨none, none⟩).lastErr = none
      ∧ (run_one envs_fail_twice true false none ⟨none, none⟩).sleeps
          = [min (2 ^ 1) 5, min (2 ^ 2) 5]
      ∧ (run_one envs_fail_twice true false none ⟨none, none⟩).attempts = 3)
    ∧ ((run_one envs_all_fail true false none ⟨none, none⟩).lastErr
          = some (.statusErr 500)
      ∧ (run_one envs_all_fail true false none ⟨none, none⟩).sleeps
          = [min (2 ^ 1) 5, min (2 ^ 2) 5, min (2 ^ 3) 5]
      ∧ (run_one envs_all_fail true false none ⟨none, none⟩).attempts = 3) := by
  constructor
  · exact C4_retry_controller.2.1 envs_fail_twice true false none ⟨none, none⟩
      (.statusErr 500) (.statusErr 500) () rfl rfl rfl
  · exact C4_retry_controller.2.2 envs_all_fail true false none ⟨none, none⟩
      (.statusErr 500) (.statusErr 500) (.statusErr 500) rfl rfl rfl

/-- C4 counterexample: when all three attempts fail, `run_one` performs
three backoff sleeps for three attempts — it also sleeps after the final
attempt, contradicting the claim that it "sleeps only between attempts,
not after the final one". -/
theorem C4_counterexample :
    (run_one envs_all_fail true false none ⟨none, none⟩).attempts = 3
    ∧ (run_one envs_all_fail true false none ⟨none, none⟩).sleeps = [2, 4, 5] :=
  ⟨rfl, rfl⟩

end Dotfiles

namespace Dotfiles

/-- Setting an element changes `countP` by the difference of the old and
new elements' predicate values. -/
theorem countP_set_add {α : Type} (p : α → Bool) (l : List α) (i : Nat)
    (a b : α) (h : l.get? i = some a) :
    (l.set i b).countP p + (if p a then 1 else 0)
      = l.countP p + (if p b then 1 else 0) := by
  induction l generalizing i with
  | nil => simp at h
  | cons x xs ih =>
    cases i with
    | zero =>
      simp only [List.get?_cons_zero, Option.some.injEq] at h
      subst h
      simp only [List.set_cons_zero, List.countP_cons]
      omega
    | succ j =>
      simp only [List.get?_cons_succ] at h
      have hx := ih j h
      simp only [List.set_cons_succ, List.countP_cons]
      omega

/-- No transfer is active in the initial scheduler state. -/
theorem countP_replicate_pending (m : Nat) :
    (List.replicate m TStat.pending).countP (fun t => t == .active) = 0 := by
  induction m with
  | zero => rfl
  | succ k ih => simp [List.replicate, List.countP_cons, ih]

/-- Semaphore invariant: available permits plus actively streaming
transfers always equal the admission limit. -/
theorem sched_invariant {n m : Nat} {s : Sched} (h : SchedReach n m s) :
    s.avail + active_count s = n := by
  induction h with
  | init =>
    simp [Sched.init, active_count, countP_replicate_pending]
  | @step s0 s1 hr hs ih =>
    cases hs with
    | acquire i a ha hg =>
      have hc := countP_set_add (fun t => t == TStat.active) s0.tasks i
        TStat.pending TStat.active hg
      simp only [active_count] at *
      simp at hc
      omega
    | release i hg =>
      have hc := countP_set_add (fun t => t == TStat.active) s0.tasks i
        TStat.active TStat.done hg
      simp only [active_count] at *
      simp at hc
      omega

/-- C5: with an admission limit of `n`, in every state reachable by the
scheduler (transfers acquire one semaphore permit before streaming and
release it afterwards; each transition reads only the task's own status
and the shared counter), at most `n` transfers are actively streaming. -/
theorem C5_admission_bound (n m : Nat) (s : Sched) (h : SchedReach n m s) :
    active_count s ≤ n := by
  have := sched_invariant h
  omega

/-- C5 witness: with limit 2 and 3 submitted transfers, the reachable
state in which two transfers stream concurrently satisfies the bound. -/
theorem C5_admission_bound_witness :
    2 < 3 ∧ active_count ⟨0, [TStat.active, TStat.active, TStat.pending]⟩ ≤ 2 := by
  refine ⟨by norm_num, ?_⟩
  have h1 : SchedStep (Sched.init 2 3) ⟨1, (Sched.init 2 3).tasks.set 0 .active⟩ :=
    SchedStep.acquire _ 0 1 rfl rfl
  have h2 : SchedStep ⟨1, (Sched.init 2 3).tasks.set 0 .active⟩
      ⟨0, ((Sched.init 2 3).tasks.set 0 .active).set 1 .active⟩ :=
    SchedStep.acquire _ 1 0 rfl rfl
  exact C5_admission_bound 2 3 _ (SchedReach.step (SchedReach.step SchedReach.init h1) h2)

/-- C9: in the release-asset fetcher's `download_one`, a stream that
completes without an HTTP error renames the staging file to the
destination unconditionally — the expected-size parameter never changes
the outcome, and in particular a final staging length different from the
supplied expected size raises no error and does not prevent
installation. -/
theorem C9_rename_unconditional :
    (∀ (env : GhEnv) (e1 e2 : Option Nat) (fs : GhFs),
      gh_download_one env e1 fs = gh_download_one env e2 fs)
    ∧ (∀ (env : GhEnv) (n : Nat) (fs : GhFs),
        env.status < 400 →
        ((gh_download_one env (some n) fs).1.dest.getD []).length ≠ n →
        (gh_download_one env (some n) fs).2 = .ok ()
        ∧ (gh_download_one env (some n) fs).1.part = none
        ∧ (gh_download_one env (some n) fs).1.dest.isSome = true) := by
  constructor
  · intro env e1 e2 fs
    simp [gh_download_one]
  · intro env n fs h0 _
    have h0' : ¬ (400 ≤ env.status) := by omega
    refine ⟨?_, ?_, ?_⟩ <;> simp [gh_download_one, h0']

/-- C9 witness: a 200 stream of three bytes with expected size 99 installs
the three-byte file without error. -/
theorem C9_rename_unconditional_witness :
    (gh_download_one gh_env_ok (some 99) ⟨none, none⟩).2 = .ok ()
    ∧ (gh_download_one gh_env_ok (some 99) ⟨none, none⟩).1.part = none
    ∧ (gh_download_one gh_env_ok (some 99) ⟨none, none⟩).1.dest.isSome = true :=
  C9_rename_unconditional.2 gh_env_ok 99 ⟨none, none⟩ (by decide) (by decide)

/-- C10: the parallelism limit passed to `download_many` is
`clamp(parallel, 1, 16) = max(1, min(16, parallel))`, so the effective
concurrency always lies in the closed interval `[1, 16]`. -/
theorem C10_parallel_clamp (p : Int) :
    effective_parallel p = max 1 (min 16 p)
    ∧ 1 ≤ effective_parallel p ∧ effective_parallel p ≤ 16 :=
  ⟨rfl, le_max_left _ _, max_le (by norm_num) (min_le_left _ _)⟩

end Dotfiles

namespace Dotfiles

/-- C2 (amended): in the generic downloader, a digest mismatch fails the
transfer with the integrity `DownloadError`, deletes the staging file,
installs nothing at the final path, and the atomic install runs only after
verification succeeds or is skipped.  In the release-asset fetcher,
verification instead runs only after the staging file has already been
renamed into place: a mismatch there yields `SystemExit(2)` with the
mismatched files left installed. -/
theorem C2_integrity_verification :
    (∀ (env : Env) (r o : Bool) (s : String) (fs : Fs) (staged : List Nat),
      (stream_phase env r o fs).res = .ok staged →
      py_lower (env.hashFn staged) ≠ py_lower s →
      (download_one_async env r o (some s) fs).out
          = .error (.downloadErr "sha-mismatch")
      ∧ (download_one_async env r o (some s) fs).fs.temp = none
      ∧ (download_one_async env r o (some s) fs).fs.final = fs.final
      ∧ Ev.installed ∉ (download_one_async env r o (some s) fs).trace)
    ∧ (∀ (env : Env) (r o : Bool) (sha : Option String) (fs : Fs),
        Ev.installed ∈ (download_one_async env r o sha fs).trace →
        sha = none ∨ ∃ staged s, sha = some s
          ∧ (stream_phase env r o fs).res = .ok staged
          ∧ py_lower (env.hashFn staged) = py_lower s)
    ∧ (∀ (hf : List Nat → String) (cmap : List (String × String))
        (envOf : String → GhEnv) (expected : String → Option Nat)
        (assets : List String) (dir0 dir : String → GhFs),
        gh_run_data envOf expected assets dir0 = (dir, none) →
        0 < assets.countP (fun a => gh_verify_failed hf cmap dir a) →
        gh_download_many hf cmap envOf expected assets dir0 = (.exited 2, dir)) := by
  refine ⟨?_, ?_, ?_⟩
  · intro env r o s fs staged hres hmm
    have hf := stream_phase_final env r o fs
    have hni := stream_phase_no_install env r o fs
    refine ⟨?_, ?_, ?_, ?_⟩
    · simp [download_one_async, hres, verify_install, hmm]
    · simp [download_one_async, hres, verify_install, hmm]
    · simp [download_one_async, hres, verify_install, hmm, hf]
    · simp only [download_one_async, hres, verify_install]
      simp [hmm, List.mem_append]
      exact hni
  · intro env r o sha fs hmem
    have hni := stream_phase_no_install env r o fs
    cases hres : (stream_phase env r o fs).res with
    | error e =>
      simp only [download_one_async, hres] at hmem
      exact absurd hmem hni
    | ok staged =>
      cases sha with
      | none => exact Or.inl rfl
      | some s =>
        by_cases hm : py_lower (env.hashFn staged) = py_lower s
        · exact Or.inr ⟨staged, s, rfl, rfl, hm⟩
        · simp only [download_one_async, hres, verify_install] at hmem
          simp [hm, List.mem_append] at hmem
          exact absurd hmem hni
  · intro hf cmap envOf expected assets dir0 dir h1 h2
    simp [gh_download_many, h1, h2]

/-- C2 witness: a staged body hashing to `"aa"` against expected digest
`"BB"` fails with the integrity error (staging deleted, nothing
installed); and the concrete release-fetcher batch with the same mismatch
exits with status 2 while the file stays installed. -/
theorem C2_integrity_verification_witness :
    ((download_one_async env_resume_206 true false (some "BB") ⟨none, none⟩).out
        = .error (.downloadErr "sha-mismatch")
      ∧ (download_one_async env_resume_206 true false (some "BB") ⟨none, none⟩).fs.temp
          = none
      ∧ (download_one_async env_resume_206 true false (some "BB") ⟨none, none⟩).fs.final
          = (Fs.mk none none).final
      ∧ Ev.installed ∉
          (download_one_async env_resume_206 true false (some "BB") ⟨none, none⟩).trace)
    ∧ gh_download_many hash_aa [("a.bin", "BB")] gh_envOf_ok (fun _ => none)
        ["a.bin"] gh_dir0 = (.exited 2, gh_dir_one) := by
  constructor
  · exact C2_integrity_verification.1 env_resume_206 true false "BB" ⟨none, none⟩
      [0, 1, 2, 3] rfl (by decide)
  · exact C2_integrity_verification.2.2 hash_aa [("a.bin", "BB")] gh_envOf_ok
      (fun _ => none) ["a.bin"] gh_dir0 gh_dir_one rfl (by decide)

/-- C2 counterexample: in the release-asset fetcher, a transfer whose
expected digest (`"BB"`, lowercased `"bb"`) does not match the staged
bytes (hashing to `"aa"`) is nevertheless renamed to the final path —
the batch exits with status 2 but the mismatched file remains installed,
contradicting the claim that the staging file is deleted, nothing is
installed, and the install runs only after verification succeeds. -/
theorem C2_counterexample :
    (gh_download_many hash_aa [("a.bin", "BB")] gh_envOf_ok (fun _ => none)
        ["a.bin"] gh_dir0).1 = .exited 2
    ∧ ((gh_download_many hash_aa [("a.bin", "BB")] gh_envOf_ok (fun _ => none)
        ["a.bin"] gh_dir0).2 "a.bin").dest = some [1, 2, 3]
    ∧ hash_aa [1, 2, 3] ≠ py_lower "BB" :=
  ⟨rfl, rfl, by decide⟩

end Dotfiles

namespace Dotfiles

/-- Every batch entry ends up in exactly one of the succeeded/failed
partitions. -/
theorem filter_filterMap_length (rs : List RunRes) :
    (rs.filter fun r => r.lastErr.isNone).length
      + (rs.filterMap fun r => r.lastErr).length = rs.length := by
  induction rs with
  | nil => rfl
  | cons x xs ih =>
    cases hx : x.lastErr with
    | none =>
      simp only [List.filter_cons, List.filterMap_cons, hx]
      simp
      omega
    | some e =>
      simp only [List.filter_cons, List.filterMap_cons, hx]
      simp
      omega

/-- C6 (amended): in the generic downloader the batch always runs to
completion — every submitted transfer reaches a terminal success or
failure state (the partitions sum to the number of jobs), overall failure
is signaled solely by a non-empty failed list via exit code 1, and each
transfer's result is a function of its own job alone (fault isolation).
In the release-asset fetcher, by contrast, an HTTP error in one transfer
propagates out of `asyncio.gather` as the batch outcome rather than being
recorded in a failed list. -/
theorem C6_batch_completion :
    (∀ (r o : Bool) (s : Option String) (jobs : List UrlJob),
      (batch_succeeded r o s jobs).length + (batch_failed r o s jobs).length
        = jobs.length)
    ∧ (∀ (r o : Bool) (s : Option String) (jobs : List UrlJob),
        (batch_exit_code r o s jobs = 0 ↔ batch_failed r o s jobs = [])
        ∧ (batch_failed r o s jobs ≠ [] → batch_exit_code r o s jobs = 1))
    ∧ (∀ (r o : Bool) (s : Option String) (jobs : List UrlJob) (i : Nat),
        (batch_results r o s jobs).get? i
          = (jobs.get? i).map fun j => run_one j.envs r o s j.fs0)
    ∧ (∀ (envOf : String → GhEnv) (expected : String → Option Nat)
        (a : String) (rest : List String) (dir : String → GhFs) (e : Nat),
        (gh_download_one (envOf a) (expected a) (dir a)).2 = .error e →
        (gh_run_data envOf expected (a :: rest) dir).2 = some e) := by
  refine ⟨?_, ?_, ?_, ?_⟩
  · intro r o s jobs
    have h := filter_filterMap_length (batch_results r o s jobs)
    have hlen : (batch_results r o s jobs).length = jobs.length := by
      simp [batch_results]
    rw [batch_succeeded, batch_failed]
    omega
  · intro r o s jobs
    by_cases h : batch_failed r o s jobs = [] <;> simp [batch_exit_code, h]
  · intro r o s jobs i
    simp [batch_results, List.get?_map]
  · intro envOf expected a rest dir e h
    simp only [gh_run_data, h]

/-- C6 witness: a release-fetcher batch whose first asset gets HTTP 404
aborts with the propagated 404; a generic-downloader batch of one failing
job signals failure via exit code 1. -/
theorem C6_batch_completion_witness :
    (gh_run_data gh_envOf_mixed (fun _ => none) ["a", "b"] gh_dir0).2 = some 404
    ∧ batch_exit_code true false none [job_fail] = 1 := by
  constructor
  · exact C6_batch_completion.2.2.2 gh_envOf_mixed (fun _ => none) "a" ["b"]
      gh_dir0 404 rfl
  · exact (C6_batch_completion.2.1 true false none [job_fail]).2 (by decide)

/-- C6 counterexample: in the release-asset fetcher, the batch with
assets `"a"` (HTTP 404) and `"b"` ends with the 404 exception propagating
out of the gather — an early abort in which the sibling `"b"` never
reaches an installed state and no failed list is produced, contradicting
the claim that an error in one transfer never aborts the batch and that
failure is signaled solely by a non-empty failed list. -/
theorem C6_counterexample :
    (gh_run_data gh_envOf_mixed (fun _ => none) ["a", "b"] gh_dir0).2 = some 404
    ∧ ((gh_run_data gh_envOf_mixed (fun _ => none) ["a", "b"] gh_dir0).1 "b").dest
        = none :=
  ⟨rfl, rfl⟩

end Dotfiles

namespace Dotfiles

/-! ## String helper lemmas -/

/-- Membership is preserved from `dropWhile` back to the source list. -/
theorem mem_of_mem_dropWhile {α : Type} (p : α → Bool) (l : List α) (a : α)
    (h : a ∈ l.dropWhile p) : a ∈ l := by
  induction l with
  | nil => simpa using h
  | cons x xs ih =>
    cases hx : p x with
    | true =>
      rw [List.dropWhile_cons_of_pos hx] at h
      exact List.mem_cons_of_mem _ (ih h)
    | false =>
      rw [List.dropWhile_cons_of_neg (by simp [hx])] at h
      exact h

/-- Membership is preserved from a stripped string back to the
original. -/
theorem mem_of_mem_pyStrip (l : List Char) (a : Char) (h : a ∈ pyStrip l) :
    a ∈ l := by
  unfold pyStrip at h
  rw [List.mem_reverse] at h
  have h2 := mem_of_mem_dropWhile _ _ _ h
  rw [List.mem_reverse] at h2
  exact mem_of_mem_dropWhile _ _ _ h2

/-- `dropWhile` is the identity when the head does not satisfy the
predicate. -/
theorem dropWhile_eq_self_of_head {α : Type} (p : α → Bool) (l : List α)
    (h : ∀ c, l.head? = some c → p c = false) : l.dropWhile p = l := by
  cases l with
  | nil => rfl
  | cons x xs => exact List.dropWhile_cons_of_neg (by simp [h x rfl])

/-- `dropWhile` over an all-satisfying prefix. -/
theorem dropWhile_append_of_all {α : Type} (p : α → Bool) (ws l : List α)
    (hws : ws.all p = true) : (ws ++ l).dropWhile p = l.dropWhile p := by
  induction ws with
  | nil => simp
  | cons w ws ih =>
    simp only [List.all_cons, Bool.and_eq_true] at hws
    rw [List.cons_append, List.dropWhile_cons_of_pos hws.1, ih hws.2]

/-- Stripping a string with no edge whitespace is the identity. -/
theorem pyStrip_eq_self (l : List Char)
    (h1 : l.head?.all (fun c => !isPyWs c) = true)
    (h2 : l.getLast?.all (fun c => !isPyWs c) = true) : pyStrip l = l := by
  unfold pyStrip
  rw [dropWhile_eq_self_of_head _ l (fun c hc => by rw [hc] at h1; simpa using h1)]
  rw [dropWhile_eq_self_of_head _ l.reverse
    (fun c hc => by rw [List.head?_reverse] at hc; rw [hc] at h2; simpa using h2)]
  exact List.reverse_reverse l

end Dotfiles

namespace Dotfiles

/-- A non-boundary character is not `\r`. -/
theorem not_cr_of_not_break (c : Char) (h : isLineBreak c = false) :
    (c == '\r') = false := by
  cases hh : c == '\r' with
  | false => rfl
  | true =>
    have : c = '\r' := by simpa using hh
    subst this
    exact absurd h (by decide)

/-- `splitlinesAux` on boundary-free input accumulates a single line. -/
theorem splitlinesAux_nobreak (l : List Char)
    (h : l.all (fun c => !isLineBreak c) = true) :
    ∀ cur : List Char, (cur ≠ [] ∨ l ≠ []) →
      splitlinesAux l cur false = [cur.reverse ++ l] := by
  induction l with
  | nil =>
    intro cur hne
    have hc : cur ≠ [] := by rcases hne with h' | h' <;> simp_all
    simp [splitlinesAux, hc]
  | cons c rest ih =>
    intro cur _
    simp only [List.all_cons, Bool.and_eq_true] at h
    have hc : isLineBreak c = false := by simpa using h.1
    have hcr := not_cr_of_not_break c hc
    simp only [splitlinesAux, Bool.false_and, Bool.false_eq_true, if_false, hcr,
      hc]
    rw [ih h.2 (c :: cur) (Or.inl (by simp))]
    simp

/-- `splitlinesAux` on a boundary-free line followed by one `\n`. -/
theorem splitlinesAux_nobreak_nl (l : List Char)
    (h : l.all (fun c => !isLineBreak c) = true) :
    ∀ cur : List Char, splitlinesAux (l ++ [ '\n' ]) cur false
      = [cur.reverse ++ l] := by
  induction l with
  | nil =>
    intro cur
    simp [splitlinesAux, isLineBreak]
  | cons c rest ih =>
    intro cur
    simp only [List.all_cons, Bool.and_eq_true] at h
    have hc : isLineBreak c = false := by simpa using h.1
    have hcr := not_cr_of_not_break c hc
    simp only [List.cons_append, splitlinesAux, Bool.false_and,
      Bool.false_eq_true, if_false, hcr, hc, List.append_eq]
    rw [ih h.2 (c :: cur)]
    simp

/-- `splitlines` of one boundary-free line. -/
theorem splitlines_single (l : List Char)
    (h : l.all (fun c => !isLineBreak c) = true) (hne : l ≠ []) :
    splitlines l = [l] := by
  unfold splitlines
  rw [splitlinesAux_nobreak l h [] (Or.inr hne)]
  rfl

/-- `splitlines` of one boundary-free line with a trailing newline. -/
theorem splitlines_single_nl (l : List Char)
    (h : l.all (fun c => !isLineBreak c) = true) :
    splitlines (l ++ [ '\n' ]) = [l] := by
  unfold splitlines
  rw [splitlinesAux_nobreak_nl l h []]
  rfl

/-- Hex digits are not whitespace. -/
theorem hex_not_ws (c : Char) (h : is_hex_digit c = true) : isPyWs c = false := by
  cases hw : isPyWs c with
  | false => rfl
  | true =>
    exfalso
    simp only [isPyWs, Bool.or_eq_true, beq_iff_eq] at hw
    rcases hw with ((((rfl | rfl) | rfl) | rfl) | rfl) | rfl <;>
      exact absurd h (by decide)

/-- Hex digits are not line boundaries. -/
theorem hex_not_break (c : Char) (h : is_hex_digit c = true) :
    isLineBreak c = false := by
  cases hw : isLineBreak c with
  | false => rfl
  | true =>
    exfalso
    simp only [isLineBreak, Bool.or_eq_true, beq_iff_eq] at hw
    rcases hw with ((((((((rfl | rfl) | rfl) | rfl) | rfl) | rfl) | rfl) | rfl)
      | rfl) | rfl <;> exact absurd h (by decide)

end Dotfiles

namespace Dotfiles

/-- The `HEX\s+\*?(.*)` matcher on a well-shaped line whose filename does
not begin with `*`. -/
theorem match_hex_line_ws (h ws name : List Char)
    (hlen : h.length = 64) (hhex : h.all is_hex_digit = true)
    (hwne : ws ≠ []) (hwsall : ws.all isPyWs = true)
    (hnh : name.head?.all (fun c => !isPyWs c) = true)
    (hstar : name.head? ≠ some '*') :
    match_hex_line (h ++ (ws ++ name)) = some (h, name) := by
  simp only [match_hex_line]
  rw [List.take_left' hlen, List.drop_left' hlen]
  rw [if_pos ⟨hlen, hhex⟩]
  cases ws with
  | nil => exact absurd rfl hwne
  | cons w ws' =>
    simp only [List.all_cons, Bool.and_eq_true] at hwsall
    simp only [List.cons_append]
    rw [if_pos hwsall.1]
    have hdw : ((w :: ws') ++ name).dropWhile isPyWs = name := by
      rw [dropWhile_append_of_all _ _ _ (by simp [hwsall.1, hwsall.2])]
      exact dropWhile_eq_self_of_head _ _
        (fun c hc => by rw [hc] at hnh; simpa using hnh)
    rw [List.cons_append] at hdw
    rw [hdw]
    cases name with
    | nil => rfl
    | cons n0 ns =>
      have hn0 : n0 ≠ '*' := fun e => hstar (by rw [e]; rfl)
      split
      · rename_i r heq
        injection heq with h1 _
        exact absurd h1 hn0
      · rfl

end Dotfiles

namespace Dotfiles

/-- The `HEX\s+\*?(.*)` matcher consumes a single leading `*` before the
filename. -/
theorem match_hex_line_star (h ws name : List Char)
    (hlen : h.length = 64) (hhex : h.all is_hex_digit = true)
    (hwne : ws ≠ []) (hwsall : ws.all isPyWs = true) :
    match_hex_line (h ++ (ws ++ '*' :: name)) = some (h, name) := by
  simp only [match_hex_line]
  rw [List.take_left' hlen, List.drop_left' hlen]
  rw [if_pos ⟨hlen, hhex⟩]
  cases ws with
  | nil => exact absurd rfl hwne
  | cons w ws' =>
    simp only [List.all_cons, Bool.and_eq_true] at hwsall
    simp only [List.cons_append]
    rw [if_pos hwsall.1]
    have hdw : ((w :: ws') ++ '*' :: name).dropWhile isPyWs = '*' :: name := by
      rw [dropWhile_append_of_all _ _ _ (by simp [hwsall.1, hwsall.2])]
      exact dropWhile_eq_self_of_head _ _ (fun c hc => by
        simp only [List.head?_cons, Option.some.injEq] at hc
        rw [← hc]
        decide)
    rw [List.cons_append] at hdw
    rw [hdw]
    rfl

/-- The `HEX\s+\*?(.*)` matcher fails when the 64-character window
contains a non-hex character. -/
theorem match_hex_line_none (s : List Char) (c : Char) (hc : c ∈ s.take 64)
    (hbad : is_hex_digit c = false) : match_hex_line s = none := by
  have hall : (s.take 64).all is_hex_digit = false := by
    cases hall : (s.take 64).all is_hex_digit with
    | false => rfl
    | true =>
      have := List.all_eq_true.mp hall c hc
      rw [hbad] at this
      exact absurd this (by decide)
  simp [match_hex_line, hall]

/-- The lazy `(.*?)[=:]` scan walks over a separator-free prefix,
accumulating it reversed. -/
theorem match_name_sep_append (name : List Char)
    (hnosep : ∀ c ∈ name, (c == '=' || c == ':') = false) :
    ∀ acc rest : List Char,
      match_name_sep acc (name ++ rest)
        = match_name_sep (name.reverse ++ acc) rest := by
  induction name with
  | nil => intro acc rest; simp
  | cons c cs ih =>
    intro acc rest
    have hc := hnosep c (List.mem_cons_self c cs)
    simp only [List.cons_append, match_name_sep, hc, Bool.false_eq_true,
      if_false, List.append_eq]
    rw [ih (fun c' h' => hnosep c' (List.mem_cons_of_mem _ h')) (c :: acc) rest]
    congr 1
    simp

/-- The lazy `(.*?)[=:]` scan matches at a separator whose suffix is
optional whitespace followed by exactly 64 hex digits. -/
theorem match_name_sep_hit (acc : List Char) (sep : Char)
    (hsep : sep = '=' ∨ sep = ':') (rest h : List Char)
    (hdrop : rest.dropWhile isPyWs = h)
    (hlen : h.length = 64) (hhex : h.all is_hex_digit = true) :
    match_name_sep acc (sep :: rest) = some (acc.reverse, h) := by
  have hb : (sep == '=' || sep == ':') = true := by
    rcases hsep with rfl | rfl <;> decide
  simp only [match_name_sep, hb, if_true]
  rw [hdrop]
  rw [if_pos ⟨hlen, hhex⟩]

end Dotfiles

namespace Dotfiles

/-- Hex strings contain no line boundaries. -/
theorem all_nobreak_of_hex (h : List Char) (hhex : h.all is_hex_digit = true) :
    h.all (fun c => !isLineBreak c) = true := by
  rw [List.all_eq_true] at hhex ⊢
  intro c hc
  simp [hex_not_break c (by simpa using hhex c hc)]

/-- Elements reached through `getLast?` are members. -/
theorem mem_of_getLast?_eq (l : List Char) (c : Char) (h : l.getLast? = some c) :
    c ∈ l := by
  have hm : c ∈ l.getLast? := by rw [h]; rfl
  obtain ⟨hne, rfl⟩ := List.mem_getLast?_eq_getLast hm
  exact List.getLast_mem hne

/-- `parse_checksum_line` on a `HEX<ws>filename` line. -/
theorem parse_line_hex (h ws name : List Char)
    (hlen : h.length = 64) (hhex : h.all is_hex_digit = true)
    (hwne : ws ≠ []) (hwsall : ws.all isPyWs = true)
    (hname : tidy_name name) (hstar : name.head? ≠ some '*') :
    parse_checksum_line (h ++ (ws ++ name))
      = some (name, h.map Char.toLower) := by
  obtain ⟨hne, hh1, hh2, _⟩ := hname
  obtain ⟨h0, hs, rfl⟩ : ∃ h0 hs, h = h0 :: hs := by
    cases h with
    | nil => simp at hlen
    | cons a b => exact ⟨a, b, rfl⟩
  have hhex0 : is_hex_digit h0 = true := by
    have := List.all_eq_true.mp hhex h0 (List.mem_cons_self h0 hs)
    simpa using this
  have hwsne : ws ++ name ≠ [] := by
    cases ws with
    | nil => exact absurd rfl hwne
    | cons a b => simp
  have hstrip : pyStrip ((h0 :: hs) ++ (ws ++ name))
      = (h0 :: hs) ++ (ws ++ name) := by
    apply pyStrip_eq_self
    · simp [Option.all, hex_not_ws h0 hhex0]
    · rw [List.getLast?_append_of_ne_nil _ hwsne,
        List.getLast?_append_of_ne_nil _ hne]
      exact hh2
  have hnem : ¬ (((h0 :: hs) ++ (ws ++ name)).isEmpty = true) := by simp
  have hhash : ¬ (((h0 :: hs) ++ (ws ++ name)).head? = some '#') := by
    simp only [List.cons_append, List.head?_cons]
    intro heq
    have : h0 = '#' := by simpa using heq
    rw [this] at hhex0
    exact absurd hhex0 (by decide)
  simp only [parse_checksum_line]
  rw [hstrip, if_neg hnem, if_neg hhash,
    match_hex_line_ws (h0 :: hs) ws name hlen hhex hwne hwsall hh1 hstar]
  simp [pyStrip_eq_self name hh1 hh2]

/-- `parse_checksum_line` on a `HEX<ws>*filename` line. -/
theorem parse_line_hex_star (h ws name : List Char)
    (hlen : h.length = 64) (hhex : h.all is_hex_digit = true)
    (hwne : ws ≠ []) (hwsall : ws.all isPyWs = true)
    (hname : tidy_name name) :
    parse_checksum_line (h ++ (ws ++ '*' :: name))
      = some (name, h.map Char.toLower) := by
  obtain ⟨hne, hh1, hh2, _⟩ := hname
  obtain ⟨h0, hs, rfl⟩ : ∃ h0 hs, h = h0 :: hs := by
    cases h with
    | nil => simp at hlen
    | cons a b => exact ⟨a, b, rfl⟩
  have hhex0 : is_hex_digit h0 = true := by
    have := List.all_eq_true.mp hhex h0 (List.mem_cons_self h0 hs)
    simpa using this
  have hwsne : ws ++ '*' :: name ≠ [] := by
    cases ws with
    | nil => exact absurd rfl hwne
    | cons a b => simp
  have hstrip : pyStrip ((h0 :: hs) ++ (ws ++ '*' :: name))
      = (h0 :: hs) ++ (ws ++ '*' :: name) := by
    apply pyStrip_eq_self
    · simp [Option.all, hex_not_ws h0 hhex0]
    · rw [List.getLast?_append_of_ne_nil _ hwsne,
        List.getLast?_append_of_ne_nil _ (by simp : '*' :: name ≠ [])]
      show Option.all (fun c => !isPyWs c) (([ '*' ] ++ name).getLast?) = true
      rw [List.getLast?_append_of_ne_nil _ hne]
      exact hh2
  have hnem : ¬ (((h0 :: hs) ++ (ws ++ '*' :: name)).isEmpty = true) := by simp
  have hhash : ¬ (((h0 :: hs) ++ (ws ++ '*' :: name)).head? = some '#') := by
    simp only [List.cons_append, List.head?_cons]
    intro heq
    have : h0 = '#' := by simpa using heq
    rw [this] at hhex0
    exact absurd hhex0 (by decide)
  simp only [parse_checksum_line]
  rw [hstrip, if_neg hnem, if_neg hhash,
    match_hex_line_star (h0 :: hs) ws name hlen hhex hwne hwsall]
  simp [pyStrip_eq_self name hh1 hh2]

/-- `parse_checksum_line` on a `filename[=:] HEX` line. -/
theorem parse_line_sep (name : List Char) (sep : Char)
    (hsep : sep = '=' ∨ sep = ':') (mid h : List Char)
    (hmid : mid.all isPyWs = true)
    (hlen : h.length = 64) (hhex : h.all is_hex_digit = true)
    (hname : tidy_name name) (hlt : name.length < 64)
    (hnosep : ∀ c ∈ name, (c == '=' || c == ':') = false)
    (hhash : name.head? ≠ some '#') :
    parse_checksum_line (name ++ sep :: (mid ++ h))
      = some (name, h.map Char.toLower) := by
  obtain ⟨hne, hh1, hh2, _⟩ := hname
  have hhne : h ≠ [] := by
    intro e
    rw [e] at hlen
    simp at hlen
  have hhead : ∀ c, h.head? = some c → isPyWs c = false := by
    intro c hc
    cases h with
    | nil => simp at hc
    | cons a b =>
      have ha : a = c := by simpa using hc
      subst ha
      exact hex_not_ws a (by
        have := List.all_eq_true.mp hhex a (List.mem_cons_self a b)
        simpa using this)
  have hstrip : pyStrip (name ++ sep :: (mid ++ h))
      = name ++ sep :: (mid ++ h) := by
    apply pyStrip_eq_self
    · cases name with
      | nil => exact absurd rfl hne
      | cons n0 ns => simpa using hh1
    · have hshape : sep :: (mid ++ h) = ((sep :: mid) ++ h) := by simp
      rw [List.getLast?_append_of_ne_nil _ (by simp : sep :: (mid ++ h) ≠ []),
        hshape, List.getLast?_append_of_ne_nil _ hhne]
      cases hgl : h.getLast? with
      | none => simp [List.getLast?_eq_none_iff] at hgl; exact absurd hgl hhne
      | some c =>
        simp only [Option.all]
        simp [hex_not_ws c (by
          have := List.all_eq_true.mp hhex c (mem_of_getLast?_eq h c hgl)
          simpa using this)]
  have hnem : ¬ ((name ++ sep :: (mid ++ h)).isEmpty = true) := by
    cases name with
    | nil => exact absurd rfl hne
    | cons a b => simp
  have hhash2 : ¬ ((name ++ sep :: (mid ++ h)).head? = some '#') := by
    cases name with
    | nil => exact absurd rfl hne
    | cons n0 ns =>
      simp only [List.cons_append, List.head?_cons]
      intro heq
      have : n0 = '#' := by simpa using heq
      exact hhash (by simp [this])
  have hAfail : match_hex_line (name ++ sep :: (mid ++ h)) = none := by
    apply match_hex_line_none _ sep
    · rw [List.take_append_eq_append_take]
      apply List.mem_append_right
      cases hk : 64 - name.length with
      | zero => omega
      | succ m =>
        rw [List.take_succ_cons]
        exact List.mem_cons_self sep _
    · rcases hsep with rfl | rfl <;> decide
  have hB : match_name_sep [] (name ++ sep :: (mid ++ h)) = some (name, h) := by
    rw [match_name_sep_append name hnosep [] (sep :: (mid ++ h)),
      match_name_sep_hit (name.reverse ++ []) sep hsep (mid ++ h) h
        (by
          rw [dropWhile_append_of_all _ _ _ hmid]
          exact dropWhile_eq_self_of_head _ _ hhead) hlen hhex]
    simp
  simp only [parse_checksum_line]
  rw [hstrip, if_neg hnem, if_neg hhash2, hAfail, hB]
  simp [pyStrip_eq_self name hh1 hh2]

end Dotfiles


namespace Dotfiles

/-- Parsing a manifest consisting of one recognized boundary-free line
produces the single corresponding entry. -/
theorem parse_lines_single (line k v : List Char)
    (hnb : line.all (fun c => !isLineBreak c) = true) (hne : line ≠ [])
    (hl : parse_checksum_line line = some (k, v)) :
    parse_checksum_lines ⟨line⟩ = [(⟨k⟩, ⟨v⟩)] := by
  simp only [parse_checksum_lines]
  rw [splitlines_single line hnb hne]
  simp [hl, dict_insert]

/-- Parsing a manifest consisting of one recognized boundary-free line
with a trailing newline produces the single corresponding entry. -/
theorem parse_lines_single_nl (line k v : List Char)
    (hnb : line.all (fun c => !isLineBreak c) = true)
    (hl : parse_checksum_line line = some (k, v)) :
    parse_checksum_lines ⟨line ++ [ '\n' ]⟩ = [(⟨k⟩, ⟨v⟩)] := by
  simp only [parse_checksum_lines]
  rw [splitlines_single_nl line hnb]
  simp [hl, dict_insert]

end Dotfiles

namespace Dotfiles

/-- C8: per non-empty non-comment manifest line, parsing recognizes the
formats `<64-hex> <filename>`, `<64-hex> *<filename>`,
`<filename>: <64-hex>` and `<filename>=<64-hex>` with case-insensitive
hex, mapping the filename to the lowercased digest; in particular a line
of a 64-hex digest, whitespace and `myfile.tar.gz` yields exactly that
single entry with the digest lowercased, and a line in none of the
formats contributes nothing. -/
theorem C8_parse_checksum_formats :
    (∀ h name : List Char,
      h.length = 64 → h.all is_hex_digit = true → tidy_name name →
      name.head? ≠ some '*' →
      parse_checksum_lines ⟨h ++ ' ' :: name⟩
        = [(⟨name⟩, ⟨h.map Char.toLower⟩)])
    ∧ (∀ h name : List Char,
        h.length = 64 → h.all is_hex_digit = true → tidy_name name →
        parse_checksum_lines ⟨h ++ ' ' :: '*' :: name⟩
          = [(⟨name⟩, ⟨h.map Char.toLower⟩)])
    ∧ (∀ h name : List Char,
        h.length = 64 → h.all is_hex_digit = true → tidy_name name →
        name.length < 64 → (∀ c ∈ name, (c == '=' || c == ':') = false) →
        name.head? ≠ some '#' →
        parse_checksum_lines ⟨name ++ ':' :: ' ' :: h⟩
          = [(⟨name⟩, ⟨h.map Char.toLower⟩)])
    ∧ (∀ h name : List Char,
        h.length = 64 → h.all is_hex_digit = true → tidy_name name →
        name.length < 64 → (∀ c ∈ name, (c == '=' || c == ':') = false) →
        name.head? ≠ some '#' →
        parse_checksum_lines ⟨name ++ '=' :: h⟩
          = [(⟨name⟩, ⟨h.map Char.toLower⟩)])
    ∧ (∀ h : List Char,
        h.length = 64 → h.all is_hex_digit = true →
        parse_checksum_lines ⟨h ++ ("  myfile.tar.gz\n".data)⟩
          = [("myfile.tar.gz", ⟨h.map Char.toLower⟩)])
    ∧ parse_checksum_lines "no checksum content here" = [] := by
  refine ⟨?_, ?_, ?_, ?_, ?_, rfl⟩
  · intro h name hlen hhex htn hstar
    apply parse_lines_single
    · rw [List.all_append, all_nobreak_of_hex h hhex]
      simp only [List.all_cons, htn.2.2.2]
      decide
    · simp
    · have hsh : h ++ ' ' :: name = h ++ ([ ' ' ] ++ name) := by simp
      rw [hsh]
      exact parse_line_hex h ([ ' ' ]) name hlen hhex (by simp) (by decide)
        htn hstar
  · intro h name hlen hhex htn
    apply parse_lines_single
    · rw [List.all_append, all_nobreak_of_hex h hhex]
      simp only [List.all_cons, htn.2.2.2]
      decide
    · simp
    · have hsh : h ++ ' ' :: '*' :: name = h ++ ([ ' ' ] ++ '*' :: name) := by
        simp
      rw [hsh]
      exact parse_line_hex_star h ([ ' ' ]) name hlen hhex (by simp) (by decide)
        htn
  · intro h name hlen hhex htn hlt hnosep hhash
    apply parse_lines_single
    · rw [List.all_append, htn.2.2.2]
      simp only [List.all_cons, all_nobreak_of_hex h hhex]
      decide
    · cases name with
      | nil => exact absurd rfl htn.1
      | cons a b => simp
    · have := parse_line_sep name ':' (Or.inr rfl) ([ ' ' ]) h (by decide)
        hlen hhex htn hlt hnosep hhash
      simpa using this
  · intro h name hlen hhex htn hlt hnosep hhash
    apply parse_lines_single
    · rw [List.all_append, htn.2.2.2]
      simp only [List.all_cons, all_nobreak_of_hex h hhex]
      decide
    · cases name with
      | nil => exact absurd rfl htn.1
      | cons a b => simp
    · have := parse_line_sep name '=' (Or.inl rfl) ([]) h (by decide)
        hlen hhex htn hlt hnosep hhash
      simpa using this
  · intro h hlen hhex
    have hsh : h ++ ("  myfile.tar.gz\n".data)
        = (h ++ ("  myfile.tar.gz".data)) ++ [ '\n' ] := by
      have : ("  myfile.tar.gz\n".data)
          = ("  myfile.tar.gz".data) ++ [ '\n' ] := by decide
      rw [this, List.append_assoc]
    rw [hsh]
    apply parse_lines_single_nl
    · rw [List.all_append, all_nobreak_of_hex h hhex]
      decide
    · have hsh2 : h ++ ("  myfile.tar.gz".data)
          = h ++ (([ ' ', ' ' ]) ++ ("myfile.tar.gz".data)) := by
        have hx : ("  myfile.tar.gz".data)
            = ([ ' ', ' ' ]) ++ ("myfile.tar.gz".data) := by decide
        rw [hx]
      rw [hsh2]
      exact parse_line_hex h ([ ' ', ' ' ]) ("myfile.tar.gz".data) hlen hhex
        (by simp) (by decide) (by decide) (by decide)

end Dotfiles

namespace Dotfiles

/-- C8 witness: concrete manifest lines in the recognized formats, with a
mixed-case digest, parse to the single expected entry with the digest
lowercased. -/
theorem C8_parse_checksum_formats_witness :
    parse_checksum_lines
        ⟨("3A7bd3e2360a3D80613c16a63c6f8bca4e061369a7bd3e2360a3d80613c16a63".data)
          ++ ' ' :: ("file one.bin".data)⟩
      = [("file one.bin",
          "3a7bd3e2360a3d80613c16a63c6f8bca4e061369a7bd3e2360a3d80613c16a63")]
    ∧ parse_checksum_lines
        ⟨("3A7bd3e2360a3D80613c16a63c6f8bca4e061369a7bd3e2360a3d80613c16a63".data)
          ++ ("  myfile.tar.gz\n".data)⟩
      = [("myfile.tar.gz",
          "3a7bd3e2360a3d80613c16a63c6f8bca4e061369a7bd3e2360a3d80613c16a63")]
    ∧ parse_checksum_lines
        ⟨("name.zip".data) ++ ':' :: ' ' ::
          ("3A7bd3e2360a3D80613c16a63c6f8bca4e061369a7bd3e2360a3d80613c16a63".data)⟩
      = [("name.zip",
          "3a7bd3e2360a3d80613c16a63c6f8bca4e061369a7bd3e2360a3d80613c16a63")] := by
  have hlow : (⟨("3A7bd3e2360a3D80613c16a63c6f8bca4e061369a7bd3e2360a3d80613c16a63".data).map
      Char.toLower⟩ : String)
      = "3a7bd3e2360a3d80613c16a63c6f8bca4e061369a7bd3e2360a3d80613c16a63" := by
    decide
  refine ⟨?_, ?_, ?_⟩
  · rw [← hlow]
    exact C8_parse_checksum_formats.1
      ("3A7bd3e2360a3D80613c16a63c6f8bca4e061369a7bd3e2360a3d80613c16a63".data)
      ("file one.bin".data) (by decide) (by decide) (by decide) (by decide)
  · rw [← hlow]
    exact C8_parse_checksum_formats.2.2.2.2.1
      ("3A7bd3e2360a3D80613c16a63c6f8bca4e061369a7bd3e2360a3d80613c16a63".data)
      (by decide) (by decide)
  · rw [← hlow]
    exact C8_parse_checksum_formats.2.2.1
      ("3A7bd3e2360a3D80613c16a63c6f8bca4e061369a7bd3e2360a3d80613c16a63".data)
      ("name.zip".data) (by decide) (by decide) (by decide) (by decide)
      (by decide) (by decide)

end Dotfiles

namespace Dotfiles

/-- `_filename_from_url` never produces the empty string. -/
theorem filename_from_url_ne_empty (url n : String)
    (h : filename_from_url url = some n) : n ≠ "" := by
  simp only [filename_from_url] at h
  split at h
  · exact absurd h (by simp)
  · rename_i hne
    intro he
    rw [he] at h
    have hdata : path_name (unquote_chars (urlsplit_path url).data) = [] := by
      have := congrArg String.data (Option.some.inj h)
      exact this
    exact hne (by rw [hdata]; rfl)

/-- C7: the resolved destination filename follows the precedence
override / Content-Disposition (both the RFC 5987 `filename*=` form and
the plain `filename=` form) / last URL path segment / literal
`"download.bin"`; sanitization replaces path separators and control
characters with `_` (so no such character survives) and never yields an
empty name; in particular `attachment; filename="re port.bin"` with no
override resolves to `re port.bin` with the internal space preserved. -/
theorem C7_determine_filename :
    (∀ (cd : Option String) (url : String) (o : String), o ≠ "" →
      determine_filename cd url (some o) = sanitize_filename o)
    ∧ (∀ (cd : Option String) (url : String) (ov : Option String) (n : String),
        ov.getD "" = "" → filename_from_content_disposition cd = some n →
        n ≠ "" → determine_filename cd url ov = sanitize_filename n)
    ∧ (∀ (cd : Option String) (url : String) (ov : Option String) (n : String),
        ov.getD "" = "" → (filename_from_content_disposition cd).getD "" = "" →
        filename_from_url url = some n →
        determine_filename cd url ov = sanitize_filename n)
    ∧ (∀ (cd : Option String) (url : String) (ov : Option String),
        ov.getD "" = "" → (filename_from_content_disposition cd).getD "" = "" →
        filename_from_url url = none →
        determine_filename cd url ov = "download.bin")
    ∧ (∀ (s : String) (c : Char), c ∈ (sanitize_filename s).data →
        c ≠ '/' ∧ c ≠ '\\' ∧ 31 < c.toNat)
    ∧ (∀ s : String, sanitize_filename s ≠ "")
    ∧ determine_filename (some "attachment; filename=\"re port.bin\"")
        "https://example.com/data" none = "re port.bin"
    ∧ filename_from_content_disposition
        (some "attachment; filename*=UTF-8''na%20me.txt") = some "na me.txt" := by
  refine ⟨?_, ?_, ?_, ?_, ?_, ?_, rfl, rfl⟩
  · intro cd url o ho
    simp [determine_filename, ho]
  · intro cd url ov n h1 h2 h3
    simp [determine_filename, h1, py_or, h2, h3]
  · intro cd url ov n h1 h2 h3
    have hn := filename_from_url_ne_empty url n h3
    cases hcd : filename_from_content_disposition cd with
    | none => simp [determine_filename, h1, py_or, h3, hn, hcd]
    | some s =>
      have hs : s = "" := by rw [hcd] at h2; simpa using h2
      subst hs
      simp [determine_filename, h1, py_or, h3, hn, hcd]
  · intro cd url ov h1 h2 h3
    cases hcd : filename_from_content_disposition cd with
    | none =>
      simp [determine_filename, h1, py_or, h3, hcd]
      try rfl
    | some s =>
      have hs : s = "" := by rw [hcd] at h2; simpa using h2
      subst hs
      simp [determine_filename, h1, py_or, h3, hcd]
      try rfl
  · intro s c hc
    simp only [sanitize_filename] at hc
    split at hc
    · exact (by decide : ∀ x : Char, x ∈ ("download.bin".data) →
        x ≠ '/' ∧ x ≠ '\\' ∧ 31 < x.toNat) c hc
    · have hc2 := hc
      obtain ⟨b, hb, rfl⟩ := List.mem_map.mp hc2
      by_cases hb31 : b.toNat ≤ 31
      · rw [if_pos hb31]
        refine ⟨by decide, by decide, by decide⟩
      · rw [if_neg hb31]
        have hbmem := mem_of_mem_pyStrip _ _ hb
        obtain ⟨a, ha, rfl⟩ := List.mem_map.mp hbmem
        by_cases hsep : (a == '\\' || a == '/') = true
        · rw [if_pos hsep]
          refine ⟨by decide, by decide, by decide⟩
        · rw [if_neg hsep]
          rw [if_neg hsep] at hb31
          simp only [Bool.or_eq_true, beq_iff_eq] at hsep
          push_neg at hsep
          exact ⟨hsep.2, hsep.1, by omega⟩
  · intro s
    simp only [sanitize_filename]
    split
    · decide
    · rename_i hne
      intro hcontra
      have hdata : (pyStrip (s.data.map fun c =>
          if c == '\\' || c == '/' then '_' else c)).map
            (fun c => if c.toNat ≤ 31 then '_' else c) = [] :=
        congrArg String.data hcontra
      exact hne (by rw [hdata]; rfl)

/-- C7 witness: concrete resolutions at every precedence level — an
explicit override, the quoted Content-Disposition filename (the claim's
example, space preserved), the URL's last path segment, and the literal
fallback — plus a sanitizer instance. -/
theorem C7_determine_filename_witness :
    determine_filename (some "x") "https://u.example/y" (some "name.txt")
        = sanitize_filename "name.txt"
    ∧ determine_filename (some "attachment; filename=\"re port.bin\"")
        "https://example.com/data" none = sanitize_filename "re port.bin"
    ∧ determine_filename none "https://h.example/a/b.bin" none
        = sanitize_filename "b.bin"
    ∧ determine_filename none "https://h.example/" none = "download.bin"
    ∧ ('_' ≠ '/' ∧ '_' ≠ '\\' ∧ 31 < '_'.toNat) := by
  refine ⟨?_, ?_, ?_, ?_, ?_⟩
  · exact C7_determine_filename.1 (some "x") "https://u.example/y" "name.txt"
      (by decide)
  · exact C7_determine_filename.2.1 (some "attachment; filename=\"re port.bin\"")
      "https://example.com/data" none "re port.bin" rfl rfl (by decide)
  · exact C7_determine_filename.2.2.1 none "https://h.example/a/b.bin" none
      "b.bin" rfl rfl rfl
  · exact C7_determine_filename.2.2.2.1 none "https://h.example/" none rfl rfl rfl
  · exact C7_determine_filename.2.2.2.2.1 "a/b" '_' (by decide)

end Dotfiles
